import Mathlib

/-!
Verification of the libsnapshot update-state machine
(`fs_mgr/libsnapshot/snapshot.cpp` and its libdm client) against its
natural-language specification.

The C++ code is embedded shallowly: the on-disk state (the global state
file, the boot indicator, the per-snapshot record files), the
device-mapper table of live virtual devices and the image-manager backing
store are collected in a `Sys` record, and every operation of
`SnapshotManager` becomes a pure function `Sys → ... × Sys`.  Kernel
ioctls and disk writes are modelled as reliable (they fail only for the
reasons the code checks for, e.g. a missing device); real time, flock
contention and concurrent processes are outside the model.

Helpers that live in libraries outside the provided sources
(`android::base::Split/Join/ParseUint`, `DmTargetSnapshot`) are modelled
from the specification and are marked as such in their doc comments.
-/

namespace Snapshot

/-! ### Character-list splitting and joining

`android::base::Split(s, " ")` splits at every occurrence of the
delimiter, keeping empty pieces, and returns at least one piece;
`android::base::Join(pieces, " ")` interleaves the delimiter. -/

/-- Modelled from the spec: `android::base::Split` (libbase, outside `src/`)
with a one-character delimiter: split at every occurrence of the delimiter,
keeping empty pieces; the result is never empty. -/
def splitChar (d : Char) : List Char → List (List Char)
  | [] => [[]]
  | c :: cs =>
    let r := splitChar d cs
    if c = d then [] :: r else (c :: r.headI) :: r.tail

/-- Modelled from the spec: `android::base::Join` (libbase, outside `src/`)
with a one-character delimiter. -/
def joinWith (d : Char) : List (List Char) → List Char
  | [] => []
  | [t] => t
  | t :: ts => t ++ d :: joinWith d ts

def charToDigit (c : Char) : Nat := c.toNat - '0'.toNat

/-- The value of a decimal digit string (most significant digit first). -/
def decValue (l : List Char) : Nat := l.foldl (fun a c => 10 * a + charToDigit c) 0

def uint64Max : Nat := 2 ^ 64 - 1

/-- Modelled from the spec: `android::base::ParseUint<uint64_t>` (libbase,
outside `src/`) on the record fields of §3/§6, which are decimal numerals:
the token must be a non-empty string of decimal digits whose value fits in
an unsigned 64-bit integer. -/
def parseUint64 (tok : List Char) : Option Nat :=
  if tok ≠ [] ∧ tok.all Char.isDigit ∧ decValue tok ≤ uint64Max then
    some (decValue tok)
  else
    Option.none

/-- Decimal digits, least significant first, with explicit fuel so that the
recursion is structural (and hence evaluable inside the kernel). -/
def natDigitsRevFuel : Nat → Nat → List Char
  | 0, _ => []
  | fuel + 1, n =>
    if n < 10 then [Nat.digitChar n]
    else Nat.digitChar (n % 10) :: natDigitsRevFuel fuel (n / 10)

/-- Decimal digits of `n`, least significant first. -/
def natDigitsRev (n : Nat) : List Char := natDigitsRevFuel (n + 1) n

/-- Modelled from the spec: `std::to_string` on an unsigned 64-bit integer,
the form the state store writes for every numeric field. -/
def natToChars (n : Nat) : List Char := (natDigitsRev n).reverse

/-- Split a string at every space, as `android::base::Split(contents, " ")`
does in `ReadSnapshotStatus`. -/
def splitSpace (s : String) : List String :=
  (splitChar ' ' s.toList).map String.mk

/-- Join with single spaces, as `android::base::Join(pieces, " ")` does in
`WriteSnapshotStatus`. -/
def joinSpace (l : List String) : String :=
  String.mk (joinWith ' ' (l.map String.toList))

inductive UpdateState where
  | none
  | initiated
  | unverified
  | merging
  | mergeNeedsReboot
  | mergeCompleted
  | mergeFailed
  | cancelled
deriving DecidableEq, Repr

inductive SnapshotState where
  | none
  | created
  | merging
  | mergeCompleted
deriving DecidableEq, Repr

/-- The per-snapshot record persisted at `<metadata>/snapshots/<name>`
(`SnapshotManager::SnapshotStatus`; all numeric fields are `uint64_t`). -/
structure SnapshotStatus where
  state : SnapshotState
  device_size : Nat
  snapshot_size : Nat
  cow_partition_size : Nat
  cow_file_size : Nat
  sectors_allocated : Nat
  metadata_sectors : Nat
deriving DecidableEq, Repr

/-- `SnapshotManager::to_string(SnapshotState)`. -/
def snapshotStateString : SnapshotState → String
  | .none => "none"
  | .created => "created"
  | .merging => "merging"
  | .mergeCompleted => "merge-completed"

/-- The state-token parse in `ReadSnapshotStatus` (the `pieces[0]` chain). -/
def parseSnapshotState (tok : String) : Option SnapshotState :=
  if tok = "none" then some .none
  else if tok = "created" then some .created
  else if tok = "merging" then some .merging
  else if tok = "merge-completed" then some .mergeCompleted
  else Option.none

/-- `ReadSnapshotStatus`, as a function of the record file contents: split on
single spaces, require exactly seven pieces, parse the state token and the six
unsigned integers, failing on any deviation. -/
def readSnapshotStatusContents (contents : String) : Option SnapshotStatus :=
  match splitSpace contents with
  | [p0, p1, p2, p3, p4, p5, p6] =>
    (parseSnapshotState p0).bind fun state =>
    (parseUint64 p1.toList).bind fun device_size =>
    (parseUint64 p2.toList).bind fun snapshot_size =>
    (parseUint64 p3.toList).bind fun cow_partition_size =>
    (parseUint64 p4.toList).bind fun cow_file_size =>
    (parseUint64 p5.toList).bind fun sectors_allocated =>
    (parseUint64 p6.toList).bind fun metadata_sectors =>
    some ⟨state, device_size, snapshot_size, cow_partition_size,
          cow_file_size, sectors_allocated, metadata_sectors⟩
  | _ => Option.none

def natToString (n : Nat) : String := String.mk (natToChars n)

/-- `WriteSnapshotStatus`, as the record file contents it produces: the seven
fields joined with single spaces, no trailing newline. -/
def writeSnapshotStatusContents (st : SnapshotStatus) : String :=
  joinSpace [snapshotStateString st.state,
             natToString st.device_size,
             natToString st.snapshot_size,
             natToString st.cow_partition_size,
             natToString st.cow_file_size,
             natToString st.sectors_allocated,
             natToString st.metadata_sectors]

/-! ### The global state file -/

/-- `operator<<(std::ostream&, UpdateState)`: the canonical token for each
persistable state; the default branch (reached for `Cancelled`) writes
nothing. -/
def updateStateString : UpdateState → String
  | .none => "none"
  | .initiated => "initiated"
  | .unverified => "unverified"
  | .merging => "merging"
  | .mergeCompleted => "merge-completed"
  | .mergeNeedsReboot => "merge-needs-reboot"
  | .mergeFailed => "merge-failed"
  | .cancelled => ""

/-- `ReadUpdateState`, as a function of the state file contents: empty or
`none` reads as `None`, the six other canonical tokens read as themselves,
anything else reads as `None`. -/
def readUpdateStateOfContents (contents : String) : UpdateState :=
  if contents = "" ∨ contents = "none" then .none
  else if contents = "initiated" then .initiated
  else if contents = "unverified" then .unverified
  else if contents = "merging" then .merging
  else if contents = "merge-completed" then .mergeCompleted
  else if contents = "merge-needs-reboot" then .mergeNeedsReboot
  else if contents = "merge-failed" then .mergeFailed
  else .none

/-! ### Association-list helpers for the on-disk and in-kernel stores -/

def assocGet {α : Type} : List (String × α) → String → Option α
  | [], _ => Option.none
  | (k, v) :: rest, key => if k = key then some v else assocGet rest key

def assocSet {α : Type} : List (String × α) → String → α → List (String × α)
  | [], key, v => [(key, v)]
  | (k, w) :: rest, key, v =>
    if k = key then (k, v) :: rest else (k, w) :: assocSet rest key v

def assocErase {α : Type} : List (String × α) → String → List (String × α)
  | [], _ => []
  | (k, v) :: rest, key =>
    if k = key then assocErase rest key else (k, v) :: assocErase rest key

structure DmTarget where
  start : Nat
  length : Nat
  targetType : String
  params : String
  statusLine : String
deriving DecidableEq, Repr

structure DmDevice where
  suspended : Bool
  targets : List DmTarget
deriving DecidableEq, Repr

inductive DmDeviceState where
  | invalid
  | suspended
  | active
deriving DecidableEq, Repr

/-- A logical partition of the superpartition metadata, as the external
partition builder reports it: its name, whether it carries the `UPDATED`
attribute, its extent count, and the plain-linear table `CreateDmTable`
builds for it (modelled from the spec: liblp is outside `src/`). -/
structure PartitionInfo where
  name : String
  updated : Bool
  numExtents : Nat
  table : List DmTarget
deriving DecidableEq, Repr

/-- The whole world the snapshot manager manipulates: the metadata
directory (state file, boot indicator, record files), the device-mapper
device table, the image-manager backing store, the superpartition
metadata of the current slot, and the sizes of block-device nodes. -/
structure Sys where
  slotSuffix : String
  stateFile : String
  bootIndicator : Option String
  records : List (String × String)
  dm : List (String × DmDevice)
  images : List String
  superMeta : List PartitionInfo
  blockDevSizes : List (String × Nat)
deriving DecidableEq, Repr

/-- `DeviceMapper::GetState`. -/
def dmGetState (s : Sys) (name : String) : DmDeviceState :=
  match assocGet s.dm name with
  | Option.none => .invalid
  | some d => if d.suspended then .suspended else .active

/-- `DeviceMapper::DeleteDevice`: fails iff the device is absent. -/
def dmDeleteDevice (s : Sys) (name : String) : Bool × Sys :=
  match assocGet s.dm name with
  | Option.none => (false, s)
  | some _ => (true, { s with dm := assocErase s.dm name })

/-- `DeviceMapper::DeleteDeviceIfExists`: treats an absent device as success. -/
def dmDeleteDeviceIfExists (s : Sys) (name : String) : Bool × Sys :=
  if dmGetState s name = .invalid then (true, s) else dmDeleteDevice s name

/-- `DeviceMapper::LoadTableAndActivate`: loads a new table and resumes;
fails iff the device is absent. -/
def dmLoadTableAndActivate (s : Sys) (name : String) (table : List DmTarget) :
    Bool × Sys :=
  match assocGet s.dm name with
  | Option.none => (false, s)
  | some _ => (true, { s with dm := assocSet s.dm name ⟨false, table⟩ })

/-- `DeviceMapper::CreateDevice(name, table, path, timeout)`: `DM_DEV_CREATE`
fails on a duplicate name, then the table is loaded and activated. -/
def dmCreateDevice (s : Sys) (name : String) (table : List DmTarget) :
    Bool × Sys :=
  match assocGet s.dm name with
  | some _ => (false, s)
  | Option.none => (true, { s with dm := assocSet s.dm name ⟨false, table⟩ })

/-- `DeviceMapper::GetTableInfo`: the per-target spec strings. -/
def dmGetTableInfo (s : Sys) (name : String) : Option (List DmTarget) :=
  (assocGet s.dm name).map DmDevice.targets

/-- `DeviceMapper::GetDeviceString`: the `major:minor` form of a mapped
device, consumable as a target parameter; fails iff the device is absent.
The model renders it from the name; like the real form it never contains
a space or a leading slash for the names the manager uses. -/
def dmGetDeviceString (s : Sys) (name : String) : Option String :=
  match assocGet s.dm name with
  | Option.none => Option.none
  | some _ => some ("dm:" ++ name)

/-! ### The image manager (`libfiemap`, external; modelled from the spec) -/

/-- Modelled from the spec: `IImageManager::BackingImageExists`. -/
def backingImageExists (s : Sys) (name : String) : Bool :=
  name ∈ s.images

/-- Modelled from the spec: `IImageManager::DeleteBackingImage`. -/
def deleteBackingImage (s : Sys) (name : String) : Bool × Sys :=
  (true, { s with images := s.images.erase name })

/-- The block device under which a mapped backing image appears. -/
def mkImageTarget (name : String) : DmTarget :=
  { start := 0, length := 0, targetType := "linear",
    params := "backing:" ++ name, statusLine := "" }

/-- Modelled from the spec: `IImageManager::MapImageDevice` — maps an
existing backing image as a block device (a mapper device carrying the
image name, so that `GetDeviceString` can resolve it); fails if the
image is absent. -/
def mapImageDevice (s : Sys) (name : String) : Bool × Sys :=
  if name ∈ s.images then
    match assocGet s.dm name with
    | some _ => (true, s)
    | Option.none => (true, { s with dm := assocSet s.dm name ⟨false, [mkImageTarget name]⟩ })
  else (false, s)

/-- Modelled from the spec: `IImageManager::UnmapImageIfExists` — treats an
absent mapping as success. -/
def unmapImageIfExists (s : Sys) (name : String) : Bool × Sys :=
  (true, { s with dm := assocErase s.dm name })

/-! ### Device naming and the state store (`snapshot.cpp`) -/

def getCowName (snapshotName : String) : String := snapshotName ++ "-cow"

def getCowImageDeviceName (snapshotName : String) : String := snapshotName ++ "-cow-img"

def getBaseDeviceName (partitionName : String) : String := partitionName ++ "-base"

def getSnapshotExtraDeviceName (snapshotName : String) : String := snapshotName ++ "-inner"

/-- `GetSnapshotDeviceName`: the inner device name when the snapshot does
not cover the whole partition. -/
def getSnapshotDeviceName (snapshotName : String) (st : SnapshotStatus) : String :=
  if st.device_size ≠ st.snapshot_size then getSnapshotExtraDeviceName snapshotName
  else snapshotName

/-- `ListSnapshots`: the names of the record files under
`<metadata>/snapshots`. -/
def listSnapshots (s : Sys) : List String := s.records.map Prod.fst

/-- `ReadUpdateState` on the locked state file. -/
def readUpdateStateSys (s : Sys) : UpdateState :=
  readUpdateStateOfContents s.stateFile

/-- `WriteUpdateState`: serialize via `operator<<`; an empty serialization
(the `Cancelled` value) fails before the file is truncated. -/
def writeUpdateState (s : Sys) (st : UpdateState) : Bool × Sys :=
  let contents := updateStateString st
  if contents = "" then (false, s)
  else (true, { s with stateFile := contents })

/-- `ReadSnapshotStatus` on a named record: open fails if the file is
absent, then the contents are parsed. -/
def readSnapshotStatusSys (s : Sys) (name : String) : Option SnapshotStatus :=
  match assocGet s.records name with
  | Option.none => Option.none
  | some contents => readSnapshotStatusContents contents

/-- `WriteSnapshotStatus`: open `O_RDWR | O_CREAT` — without `O_TRUNC` —
and write the serialized record from offset zero.  The bytes of a longer
pre-existing record beyond the new length survive the write. -/
def writeSnapshotStatusSys (s : Sys) (name : String) (st : SnapshotStatus) : Sys :=
  let contents := writeSnapshotStatusContents st
  let old :=
    match assocGet s.records name with
    | some c => c
    | Option.none => ""
  { s with
    records := assocSet s.records name
      (String.mk (contents.data ++ old.data.drop contents.data.length)) }

/-- `RemoveSnapshotBootIndicator`: unlink, treating `ENOENT` as success. -/
def removeSnapshotBootIndicator (s : Sys) : Sys :=
  { s with bootIndicator := Option.none }

/-! ### Stack teardown -/

/-- `UnmapSnapshot`: delete the snapshot device, then the inner device. -/
def unmapSnapshot (s : Sys) (name : String) : Bool × Sys :=
  let r1 := dmDeleteDeviceIfExists s name
  if !r1.1 then (false, r1.2)
  else
    let r2 := dmDeleteDeviceIfExists r1.2 (getSnapshotExtraDeviceName name)
    if !r2.1 then (false, r2.2) else (true, r2.2)

/-- `UnmapCowDevices`: delete the cow device, then unmap the cow image. -/
def unmapCowDevices (s : Sys) (name : String) : Bool × Sys :=
  let r1 := dmDeleteDeviceIfExists s (getCowName name)
  if !r1.1 then (false, r1.2)
  else
    let r2 := unmapImageIfExists r1.2 (getCowImageDeviceName name)
    if !r2.1 then (false, r2.2) else (true, r2.2)

/-- `UnmapPartitionWithSnapshot`: tear down `P`, `P-inner`, `P-cow`,
`P-cow-img` and `P-base`, each step treating absence as success. -/
def unmapPartitionWithSnapshot (s : Sys) (targetPartitionName : String) : Bool × Sys :=
  let r1 := unmapSnapshot s targetPartitionName
  if !r1.1 then (false, r1.2)
  else
    let r2 := unmapCowDevices r1.2 targetPartitionName
    if !r2.1 then (false, r2.2)
    else
      let r3 := dmDeleteDeviceIfExists r2.2 (getBaseDeviceName targetPartitionName)
      if !r3.1 then (false, r3.2) else (true, r3.2)

/-- `DeleteSnapshot`: unmap the cow devices, delete the backing image if it
exists, then remove the record file (idempotently). -/
def deleteSnapshot (s : Sys) (name : String) : Bool × Sys :=
  let r1 := unmapCowDevices s name
  if !r1.1 then (false, r1.2)
  else
    let cowImageName := getCowImageDeviceName name
    let r2 :=
      if backingImageExists r1.2 cowImageName then deleteBackingImage r1.2 cowImageName
      else (true, r1.2)
    if !r2.1 then (false, r2.2)
    else (true, { r2.2 with records := assocErase r2.2.records name })

/-- The loop body of `RemoveAllSnapshots`:
`ok &= (UnmapPartitionWithSnapshot(..) && DeleteSnapshot(..))`, continuing
through failures. -/
def removeSnapshotList (s : Sys) : List String → Bool × Sys
  | [] => (true, s)
  | n :: ns =>
    let r1 := unmapPartitionWithSnapshot s n
    let r2 := if r1.1 then deleteSnapshot r1.2 n else (false, r1.2)
    let r3 := removeSnapshotList r2.2 ns
    (r2.1 && r3.1, r3.2)

/-- `RemoveAllSnapshots`. -/
def removeAllSnapshots (s : Sys) : Bool × Sys :=
  removeSnapshotList s (listSnapshots s)

/-- `RemoveAllUpdateState`: remove all snapshots, remove the boot
indicator, then persist `None`. -/
def removeAllUpdateState (s : Sys) : Bool × Sys :=
  let r := removeAllSnapshots s
  if !r.1 then (false, r.2)
  else writeUpdateState (removeSnapshotBootIndicator r.2) .none

/-- `FinishedSnapshotWrites`: idempotent from `Unverified`; from
`Initiated`, write the live slot suffix to the boot indicator and persist
`Unverified`; fail from any other state. -/
def finishedSnapshotWrites (s : Sys) : Bool × Sys :=
  match readUpdateStateSys s with
  | .unverified => (true, s)
  | .initiated =>
    writeUpdateState { s with bootIndicator := some s.slotSuffix } .unverified
  | _ => (false, s)

/-- `HandleCancelledUpdate`: detect a rollback (live slot equals the slot
stored in the boot indicator) and clean up. -/
def handleCancelledUpdate (s : Sys) : Bool × Sys :=
  match s.bootIndicator with
  | Option.none => (false, s)
  | some oldSlot =>
    if s.slotSuffix ≠ oldSlot then (false, s)
    else (true, (removeAllUpdateState s).2)

/-! ### Snapshot targets and the merge switch (`InitiateMerge` chain) -/

inductive SnapshotStorageMode where
  | persistent
  | merge
deriving DecidableEq, Repr

/-- Modelled from the spec (§4.B, §6): a snapshot target as
`DmTargetSnapshot` (libdm's `dm_target.cpp`, outside `src/`) serializes
it — the target type is `snapshot-merge` in merge mode and `snapshot`
otherwise, the parameters are `<base> <cow> <mode> <chunk>` with the
chunk size fixed at 8 sectors, and a freshly loaded target has no
runtime status line yet. -/
def mkSnapshotTarget (start len : Nat) (base cow : String)
    (mode : SnapshotStorageMode) : DmTarget :=
  { start := start, length := len,
    targetType := if mode = .merge then "snapshot-merge" else "snapshot",
    params := base ++ " " ++ cow ++ " " ++
      (if mode = .merge then "merge" else "P") ++ " 8",
    statusLine := "" }

/-- Modelled from the spec (§6): a linear target with parameters
`<device> <start_sector>`. -/
def mkLinearTarget (start len : Nat) (dev : String) (off : Nat) : DmTarget :=
  { start := start, length := len, targetType := "linear",
    params := dev ++ " " ++ natToString off, statusLine := "" }

/-- Modelled from the spec: `DmTargetSnapshot::GetDevicesFromParams`
(outside `src/`) — the base and cow devices are the first two
space-separated tokens of the parameter string. -/
def getDevicesFromParams (params : String) : Option (String × String) :=
  match splitSpace params with
  | base :: cow :: _ => some (base, cow)
  | _ => Option.none

/-- The snapshot-target runtime counters
(`DmTargetSnapshot::ReportsOverflow` aside, the fields of
`DmTargetSnapshot::Status`). -/
structure DmSnapStatus where
  sectors_allocated : Nat
  total_sectors : Nat
  metadata_sectors : Nat
deriving DecidableEq, Repr

/-- Modelled from the spec (§4.B): `DmTargetSnapshot::ParseStatusText`
(outside `src/`) — the status line is
`<sectors_allocated>/<total_sectors> <metadata_sectors>`, rejected on
any deviation. -/
def parseStatusText (text : String) : Option DmSnapStatus :=
  match splitSpace text with
  | [a, m] =>
    match splitChar '/' a.toList with
    | [x, y] =>
      match parseUint64 x, parseUint64 y, parseUint64 m.toList with
      | some sa, some ts, some ms => some ⟨sa, ts, ms⟩
      | _, _, _ => Option.none
    | _ => Option.none
  | _ => Option.none

/-- `GetSingleTarget`: the device must be valid and its table must hold
exactly one target.  The model returns the full target for both the
table and status queries; callers read `params` or `statusLine`
respectively. -/
def getSingleTarget (s : Sys) (dmName : String) : Option DmTarget :=
  if dmGetState s dmName = .invalid then Option.none
  else match dmGetTableInfo s dmName with
    | some [t] => some t
    | _ => Option.none

/-- `IsSnapshotDevice`: a single target of type `snapshot` or
`snapshot-merge`. -/
def isSnapshotDevice (s : Sys) (dmName : String) : Bool :=
  match getSingleTarget s dmName with
  | some t =>
    if t.targetType = "snapshot" ∨ t.targetType = "snapshot-merge" then true else false
  | Option.none => false

/-- `QuerySnapshotStatus`: the target type together with the parsed
status line of a snapshot device. -/
def querySnapshotStatus (s : Sys) (dmName : String) : Option (String × DmSnapStatus) :=
  match getSingleTarget s dmName with
  | Option.none => Option.none
  | some t =>
    if t.targetType = "snapshot" ∨ t.targetType = "snapshot-merge" then
      match parseStatusText t.statusLine with
      | some q => some (t.targetType, q)
      | Option.none => Option.none
    else Option.none

/-- `RewriteSnapshotDeviceTable`: require a single `snapshot` target,
recover the base and cow devices from its parameters, and load an
equally sized `snapshot-merge` table in place. -/
def rewriteSnapshotDeviceTable (s : Sys) (dmName : String) : Bool × Sys :=
  match dmGetTableInfo s dmName with
  | Option.none => (false, s)
  | some targets =>
    match targets with
    | [t] =>
      if t.targetType ≠ "snapshot" then (false, s)
      else
        match getDevicesFromParams t.params with
        | Option.none => (false, s)
        | some (base, cow) =>
          dmLoadTableAndActivate s dmName [mkSnapshotTarget 0 t.length base cow .merge]
    | _ => (false, s)

/-- `SwitchSnapshotToMerge`: read the record, rewrite the device table to
merge mode, then (best effort) refresh the record with the queried
counters and the `Merging` state.  When the status query fails the
source reads a default-constructed status; the model reads zeros. -/
def switchSnapshotToMerge (s : Sys) (name : String) : Bool × Sys :=
  match readSnapshotStatusSys s name with
  | Option.none => (false, s)
  | some st =>
    let dmName := getSnapshotDeviceName name st
    let r := rewriteSnapshotDeviceTable s dmName
    if !r.1 then (false, r.2)
    else
      let q :=
        match querySnapshotStatus r.2 dmName with
        | some (_, q) => q
        | Option.none => ⟨0, 0, 0⟩
      let st1 := { st with
        state := SnapshotState.merging,
        sectors_allocated := q.sectors_allocated,
        metadata_sectors := q.metadata_sectors }
      (true, writeSnapshotStatusSys r.2 name st1)

/-- The rewrite loop of `InitiateMerge`:
`rewrote_all &= SwitchSnapshotToMerge(..)`, continuing through failures. -/
def switchList (s : Sys) : List String → Bool × Sys
  | [] => (true, s)
  | n :: ns =>
    let r1 := switchSnapshotToMerge s n
    let r2 := switchList r1.2 ns
    (r1.1 && r2.1, r2.2)

/-- `InitiateMerge`: require `Unverified` and a slot switch, require every
snapshot device mapped, persist `Merging`, then rewrite every snapshot
table; on a partial rewrite persist `MergeFailed` but still report
success. -/
def initiateMerge (s : Sys) : Bool × Sys :=
  if readUpdateStateSys s ≠ .unverified then (false, s)
  else
    match s.bootIndicator with
    | Option.none => (false, s)
    | some oldSlot =>
      if s.slotSuffix = oldSlot then (false, s)
      else
        let snapshots := listSnapshots s
        if snapshots.any (fun n => decide (dmGetState s n = .invalid)) then (false, s)
        else
          let rw := writeUpdateState s .merging
          if !rw.1 then (false, rw.2)
          else
            let rs := switchList rw.2 snapshots
            if !rs.1 then (true, (writeUpdateState rs.2 .mergeFailed).2)
            else (true, rs.2)

/-- Whether a mapped device carries a single `snapshot-merge` target —
the shape `RewriteSnapshotDeviceTable` leaves behind. -/
def hasMergeTarget (s : Sys) (d : String) : Bool :=
  match dmGetTableInfo s d with
  | some [t] => t.targetType == "snapshot-merge"
  | _ => false

/-- A post-`FinishedSnapshotWrites` world with one snapshot mapped as an
active (non-suspended) `snapshot` device, ready for `InitiateMerge`. -/
def exampleUnverifiedSys : Sys :=
  ⟨"_b", "unverified", some "_a",
   [("sys", "created 1024 1024 0 512 0 0")],
   [("sys", ⟨false, [mkSnapshotTarget 0 2 "dm:base" "dm:cow"
     SnapshotStorageMode.persistent]⟩)], [], [], []⟩

/-- The same world with the snapshot device suspended: mapped, but its
device-mapper state is `SUSPENDED`, not `ACTIVE`. -/
def exampleSuspendedSys : Sys :=
  ⟨"_b", "unverified", some "_a",
   [("sys", "created 1024 1024 0 512 0 0")],
   [("sys", ⟨true, [mkSnapshotTarget 0 2 "dm:base" "dm:cow"
     SnapshotStorageMode.persistent]⟩)], [], [], []⟩

/-! ### Mapping a snapshot device (`MapSnapshot`) -/

/-- The check `android::base::StartsWith(base_device, "/")`: does the
device string name a filesystem path? -/
def startsWithSlash (s : String) : Bool :=
  match s.toList with
  | [] => false
  | c :: _ => if c = '/' then true else false

/-- The device-creation tail of `MapSnapshot`, below the mode switch:
create the snapshot device (under the `-inner` name when a linear tail
remains), and in that case stack the outer pair of linear targets over
it, deleting the inner device if the outer creation fails. -/
def mapSnapshotCreate (s : Sys) (name baseDevice cowDevice : String)
    (snapshotSectors linearSectors : Nat) (mode : SnapshotStorageMode) : Bool × Sys :=
  let snapName := if 0 < linearSectors then getSnapshotExtraDeviceName name else name
  let r1 := dmCreateDevice s snapName
    [mkSnapshotTarget 0 snapshotSectors baseDevice cowDevice mode]
  if !r1.1 then (false, r1.2)
  else if linearSectors ≠ 0 then
    match dmGetDeviceString r1.2 snapName with
    | Option.none => (false, r1.2)
    | some snapDev =>
      let r2 := dmCreateDevice r1.2 name
        [mkLinearTarget 0 snapshotSectors snapDev 0,
         mkLinearTarget snapshotSectors linearSectors baseDevice snapshotSectors]
      if !r2.1 then (false, (dmDeleteDevice r2.2 snapName).2)
      else (true, r2.2)
  else (true, r1.2)

/-- `MapSnapshot`: after validating the record and the sizes, choose the
snapshot storage mode from the global update state and create the device
stack. -/
def mapSnapshot (s : Sys) (name baseDevice cowDevice : String) : Bool × Sys :=
  match readSnapshotStatusSys s name with
  | Option.none => (false, s)
  | some st =>
    if st.state = .mergeCompleted then (false, s)
    else
      let sizeOk : Bool :=
        if startsWithSlash baseDevice then
          match assocGet s.blockDevSizes baseDevice with
          | some sz => decide (st.device_size = sz)
          | Option.none => false
        else true
      if !sizeOk then (false, s)
      else if st.device_size % 512 ≠ 0 then (false, s)
      else if st.snapshot_size % 512 ≠ 0 ∨ st.device_size < st.snapshot_size then (false, s)
      else
        let snapshotSectors := st.snapshot_size / 512
        let linearSectors := (st.device_size - st.snapshot_size) / 512
        match readUpdateStateSys s with
        | .mergeCompleted => (false, s)
        | .mergeNeedsReboot => (false, s)
        | gs =>
          let mode := if gs = .merging ∨ gs = .mergeFailed then SnapshotStorageMode.merge
                      else SnapshotStorageMode.persistent
          mapSnapshotCreate s name baseDevice cowDevice snapshotSectors linearSectors mode

/-! ### The merge driver (`CheckMergeState` chain) -/

/-- `FindPartition` on the super metadata of the current slot. -/
def findPartition (s : Sys) (name : String) : Option PartitionInfo :=
  s.superMeta.find? (fun p => p.name == name)

/-- `IsCancelledSnapshot`: the partition exists in the current super
metadata but no longer carries the `UPDATED` attribute (an external
re-flash).  The metadata itself is modelled as always readable. -/
def isCancelledSnapshot (s : Sys) (snapshotName : String) : Bool :=
  match findPartition s snapshotName with
  | Option.none => false
  | some p => !p.updated

/-- Modelled from the spec: `CreateDmTable` (liblp / `fs_mgr_dm_linear`,
outside `src/`) — the plain-linear table of the named partition's extents
in the superpartition. -/
def createDmTable (s : Sys) (partitionName : String) : Option (List DmTarget) :=
  (findPartition s partitionName).map PartitionInfo.table

/-- `CollapseSnapshotDevice`: verify a fully drained `snapshot-merge`
target (and, for a stacked device, the expected outer pair of linear
targets), then load the plain base table into the outer name and delete
the now unused inner and base devices. -/
def collapseSnapshotDevice (s : Sys) (name : String) (st : SnapshotStatus) : Bool × Sys :=
  let dmName := getSnapshotDeviceName name st
  match getSingleTarget s dmName with
  | Option.none => (false, s)
  | some t =>
    if t.targetType ≠ "snapshot-merge" then (false, s)
    else
      match getDevicesFromParams t.params with
      | Option.none => (false, s)
      | some _ =>
        let snapshotSectors := st.snapshot_size / 512
        if snapshotSectors * 512 ≠ st.snapshot_size then (false, s)
        else
          let outerOk : Bool :=
            if dmName = name then true
            else
              match dmGetTableInfo s name with
              | some [t0, t1] =>
                if t0.targetType = "linear" ∧ t1.targetType = "linear" ∧
                    t0.length = snapshotSectors ∧
                    st.device_size / 512 = t0.length + t1.length then true
                else false
              | _ => false
          if !outerOk then (false, s)
          else
            match createDmTable s name with
            | Option.none => (false, s)
            | some table =>
              let r1 := dmLoadTableAndActivate s name table
              if !r1.1 then (false, r1.2)
              else
                let r2 :=
                  if dmName ≠ name then dmDeleteDeviceIfExists r1.2 dmName else (true, r1.2)
                if !r2.1 then (false, r2.2)
                else (true, (dmDeleteDeviceIfExists r2.2 (getBaseDeviceName name)).2)

/-- `OnSnapshotMergeComplete`: if the device is still a snapshot device,
verify it is a fully drained `snapshot-merge` target and collapse it;
then delete the snapshot record and its cow artifacts. -/
def onSnapshotMergeComplete (s : Sys) (name : String) (st : SnapshotStatus) : Bool × Sys :=
  let dmName := getSnapshotDeviceName name st
  let inner : Bool × Sys :=
    if isSnapshotDevice s dmName then
      match querySnapshotStatus s dmName with
      | Option.none => (false, s)
      | some (targetType, q) =>
        if targetType ≠ "snapshot-merge" then (false, s)
        else if q.sectors_allocated ≠ q.metadata_sectors then (false, s)
        else collapseSnapshotDevice s name st
    else (true, s)
  if !inner.1 then inner
  else
    let r := deleteSnapshot inner.2 name
    if !r.1 then (false, r.2) else (true, r.2)

/-- `CheckTargetMergeState`: the per-snapshot poll of the merge driver. -/
def checkTargetMergeState (s : Sys) (name : String) : UpdateState × Sys :=
  match readSnapshotStatusSys s name with
  | Option.none => (.mergeFailed, s)
  | some st =>
    let dmName := getSnapshotDeviceName name st
    if !(isSnapshotDevice s dmName) then
      if isCancelledSnapshot s name then
        (.cancelled, (deleteSnapshot s name).2)
      else if st.state = .mergeCompleted then
        (.mergeCompleted, (onSnapshotMergeComplete s name st).2)
      else (.mergeFailed, s)
    else
      match querySnapshotStatus s dmName with
      | Option.none => (.mergeFailed, s)
      | some (targetType, q) =>
        if targetType ≠ "snapshot-merge" then (.mergeFailed, s)
        else if q.sectors_allocated ≠ q.metadata_sectors then
          if st.state = .mergeCompleted then (.mergeFailed, s)
          else (.merging, s)
        else
          let st1 := { st with state := SnapshotState.mergeCompleted }
          let s1 := writeSnapshotStatusSys s name st1
          let r := onSnapshotMergeComplete s1 name st1
          if !r.1 then (.mergeNeedsReboot, r.2)
          else (.mergeCompleted, r.2)

/-- The poll loop of `CheckMergeState(LockedFile*)`: check every snapshot
in order, collecting the per-snapshot results. -/
def checkTargets (s : Sys) : List String → List UpdateState × Sys
  | [] => ([], s)
  | n :: ns =>
    let r1 := checkTargetMergeState s n
    let r2 := checkTargets r1.2 ns
    (r1.1 :: r2.1, r2.2)

/-- Whether a per-snapshot result sets the `failed` flag of the poll loop:
`MergeFailed` does, and so does any state outside the five expected ones
(the `default` branch of the switch). -/
def resultSetsFailed (r : UpdateState) : Bool :=
  if r = UpdateState.mergeFailed ∨
      (r ≠ .merging ∧ r ≠ .mergeNeedsReboot ∧ r ≠ .mergeCompleted ∧ r ≠ .cancelled) then
    true
  else false

/-- The aggregation at the end of `CheckMergeState(LockedFile*)`:
`merging` over `failed` over `needs_reboot` (persisted) over `cancelled`
over `merge-completed`. -/
def aggregateResults (s : Sys) (results : List UpdateState) : UpdateState × Sys :=
  if results.any (fun r => decide (r = UpdateState.merging)) then (.merging, s)
  else if results.any resultSetsFailed then (.mergeFailed, s)
  else if results.any (fun r => decide (r = UpdateState.mergeNeedsReboot)) then
    (.mergeNeedsReboot, (writeUpdateState s .mergeNeedsReboot).2)
  else if results.any (fun r => decide (r = UpdateState.cancelled)) then (.cancelled, s)
  else (.mergeCompleted, s)

/-- `CheckMergeState(LockedFile*)`. -/
def checkMergeStateLocked (s : Sys) : UpdateState × Sys :=
  match readUpdateStateSys s with
  | .none => (.none, s)
  | .mergeCompleted => (.mergeCompleted, s)
  | .merging | .mergeNeedsReboot | .mergeFailed =>
    let r := checkTargets s (listSnapshots s)
    aggregateResults r.2 r.1
  | .unverified =>
    let r := handleCancelledUpdate s
    if r.1 then (.cancelled, r.2) else (.unverified, r.2)
  | st => (st, s)

/-- `CheckMergeState()` (the lock-taking overload): on `MergeCompleted`
acknowledge success, on `Cancelled` remove all update state. -/
def checkMergeStateTop (s : Sys) : UpdateState × Sys :=
  let r := checkMergeStateLocked s
  if r.1 = UpdateState.mergeCompleted then (r.1, (removeAllUpdateState r.2).2)
  else if r.1 = UpdateState.cancelled then (r.1, (removeAllUpdateState r.2).2)
  else (r.1, r.2)

/-! ### Mapping a partition with its snapshot (`MapPartitionWithSnapshot`) -/

/-- The fields of `CreateLogicalPartitionParams` the mapping path reads.
`InitDefaults` resolves the partition from the super metadata. -/
structure CreateLogicalPartitionParams where
  partitionName : String
  deviceName : Option String := Option.none
  forceWritable : Bool := false
deriving DecidableEq, Repr

def CreateLogicalPartitionParams.getPartitionName
    (p : CreateLogicalPartitionParams) : String :=
  p.partitionName

def CreateLogicalPartitionParams.getDeviceName
    (p : CreateLogicalPartitionParams) : String :=
  match p.deviceName with
  | some d => d
  | Option.none => p.partitionName

/-- Modelled from the spec: `CreateLogicalPartition` (`fs_mgr_dm_linear`,
outside `src/`) — create the plain-linear device of the partition's
extents under the given device name. -/
def createLogicalPartition (s : Sys) (partition : PartitionInfo)
    (deviceName : String) : Bool × Sys :=
  dmCreateDevice s deviceName partition.table

/-- A pending cleanup of an `AutoDeviceList`. -/
inductive CleanupItem where
  | unmapDevice (name : String)
  | unmapImage (name : String)
deriving DecidableEq, Repr

def runCleanupItem (s : Sys) (it : CleanupItem) : Sys :=
  match it with
  | .unmapDevice n => (dmDeleteDeviceIfExists s n).2
  | .unmapImage n => (unmapImageIfExists s n).2

/-- `AutoDeviceList` destruction: run the pending cleanups in reverse
insertion order. -/
def runCleanup (s : Sys) (items : List CleanupItem) : Sys :=
  items.reverse.foldl runCleanupItem s

/-- The tail of `MapCowDevices` once a cow partition is known to exist:
build its table from the super metadata, append the cow image as a final
linear extent when one is mapped, and create the `-cow` device. -/
def mapCowPartition (s : Sys) (cowName cowImageName : String)
    (st : SnapshotStatus) (items : List CleanupItem) :
    Bool × Sys × String × List CleanupItem :=
  match createDmTable s cowName with
  | Option.none => (false, s, cowName, items)
  | some table0 =>
    let tableE : Option (List DmTarget) :=
      if 0 < st.cow_file_size then
        match dmGetDeviceString s cowImageName with
        | Option.none => Option.none
        | some cowImageDevice =>
          some (table0 ++ [mkLinearTarget (st.cow_partition_size / 512)
            (st.cow_file_size / 512) cowImageDevice 0])
      else some table0
    match tableE with
    | Option.none => (false, s, cowName, items)
    | some table =>
      let r := dmCreateDevice s cowName table
      if !r.1 then (false, r.2, cowName, items)
      else (true, r.2, cowName, items ++ [CleanupItem.unmapDevice cowName])

/-- `MapCowDevices`: map the cow image when the record has an overflow
file, and unless the cow lives only in that image, compose the `-cow`
device from the reserved cow partition plus the image.  The source
`CHECK`-aborts when the record has no cow at all; the model fails.
The returned cleanup items belong to the caller's `AutoDeviceList`. -/
def mapCowDevices (s : Sys) (partitionName : String) (st : SnapshotStatus) :
    Bool × Sys × String × List CleanupItem :=
  if st.cow_partition_size + st.cow_file_size = 0 then (false, s, "", [])
  else
    let cowImageName := getCowImageDeviceName partitionName
    let cowName := getCowName partitionName
    if 0 < st.cow_file_size then
      let r := mapImageDevice s cowImageName
      if !r.1 then (false, r.2, cowName, [])
      else
        let items := [CleanupItem.unmapImage cowImageName]
        if st.cow_partition_size = 0 then (true, r.2, cowImageName, items)
        else mapCowPartition r.2 cowName cowImageName st items
    else mapCowPartition s cowName cowImageName st []

/-- `MapPartitionWithSnapshot`: decide whether a live snapshot exists
(skipping it on re-flash, a missing record, or a merged record), map the
plain partition (under `P-base` when a snapshot will be stacked, under
`P` otherwise), and in the live case compose the cow devices and the
snapshot stack, unwinding everything created on failure.  Timeouts and
output paths are not modelled. -/
def mapPartitionWithSnapshot (s : Sys) (params : CreateLogicalPartitionParams) :
    Bool × Sys :=
  if params.getPartitionName ≠ params.getDeviceName then (false, s)
  else
    match findPartition s params.getPartitionName with
    | Option.none => (false, s)
    | some partition =>
      if partition.numExtents = 0 then (true, s)
      else
        let liveE : Option (Option SnapshotStatus) :=
          if !partition.updated then some Option.none
          else
            match assocGet s.records params.getPartitionName with
            | Option.none => some Option.none
            | some contents =>
              match readSnapshotStatusContents contents with
              | Option.none => Option.none
              | some st =>
                if st.state = SnapshotState.mergeCompleted then some Option.none
                else some (some st)
        match liveE with
        | Option.none => (false, s)
        | some live =>
          let deviceName :=
            match live with
            | some _ => getBaseDeviceName params.getPartitionName
            | Option.none => params.getDeviceName
          let rc := createLogicalPartition s partition deviceName
          if !rc.1 then (false, rc.2)
          else
            match live with
            | Option.none => (true, rc.2)
            | some st =>
              let items0 := [CleanupItem.unmapDevice deviceName]
              match dmGetDeviceString rc.2 deviceName with
              | Option.none => (false, runCleanup rc.2 items0)
              | some baseDevice =>
                let rcow := mapCowDevices rc.2 params.getPartitionName st
                if !rcow.1 then (false, runCleanup rcow.2.1 (items0 ++ rcow.2.2.2))
                else
                  let items := items0 ++ rcow.2.2.2
                  match dmGetDeviceString rcow.2.1 rcow.2.2.1 with
                  | Option.none => (false, runCleanup rcow.2.1 items)
                  | some cowDevice =>
                    let rm := mapSnapshot rcow.2.1 params.getPartitionName baseDevice cowDevice
                    if !rm.1 then (false, runCleanup rm.2 items)
                    else (true, rm.2)

/-! ### The modelled top-level operations and frame conditions -/

/-- The top-level operations of the modelled `SnapshotManager` API, with
their arguments; used to state invariants quantified over every modelled
operation. -/
inductive Op where
  | opFinishedSnapshotWrites
  | opInitiateMerge
  | opCheckMergeState
  | opRemoveAllUpdateState
  | opWriteUpdateState (st : UpdateState)
  | opMapSnapshot (name baseDevice cowDevice : String)
  | opMapPartitionWithSnapshot (params : CreateLogicalPartitionParams)
  | opUnmapPartitionWithSnapshot (name : String)
  | opDeleteSnapshot (name : String)
  | opHandleCancelledUpdate
deriving DecidableEq, Repr

/-- Run one modelled operation for its effect on the system state. -/
def runOp (s : Sys) : Op → Sys
  | .opFinishedSnapshotWrites => (finishedSnapshotWrites s).2
  | .opInitiateMerge => (initiateMerge s).2
  | .opCheckMergeState => (checkMergeStateTop s).2
  | .opRemoveAllUpdateState => (removeAllUpdateState s).2
  | .opWriteUpdateState st => (writeUpdateState s st).2
  | .opMapSnapshot n b c => (mapSnapshot s n b c).2
  | .opMapPartitionWithSnapshot p => (mapPartitionWithSnapshot s p).2
  | .opUnmapPartitionWithSnapshot n => (unmapPartitionWithSnapshot s n).2
  | .opDeleteSnapshot n => (deleteSnapshot s n).2
  | .opHandleCancelledUpdate => (handleCancelledUpdate s).2

/-- Frame condition: `t` differs from `s` at most in the mapper table, the
backing store and the snapshot records — the state file, the boot
indicator, the slot and the super metadata are untouched. -/
def changesStoresAndRecords (s t : Sys) : Prop :=
  t.slotSuffix = s.slotSuffix ∧ t.stateFile = s.stateFile ∧
  t.bootIndicator = s.bootIndicator ∧ t.superMeta = s.superMeta ∧
  t.blockDevSizes = s.blockDevSizes

/-- Frame condition: `t` differs from `s` at most in the mapper table and
the image-manager backing store. -/
def changesStoresOnly (s t : Sys) : Prop :=
  changesStoresAndRecords s t ∧ t.records = s.records

/-- Frame condition: `t` differs from `s` at most in the mapper table. -/
def changesDmOnly (s t : Sys) : Prop :=
  changesStoresOnly s t ∧ t.images = s.images

/-- A concrete system in the middle of a merge: one snapshot whose mapped
device is a half-drained `snapshot-merge` target; used as a test vector. -/
def exampleMergingSys : Sys :=
  ⟨"_b", "merging", some "_a",
   [("sys", "merging 1024 1024 0 512 5 7")],
   [("sys", ⟨false, [⟨0, 2, "snapshot-merge", "dm:sys-base dm:sys-cow merge 8",
     "5/10 7"⟩]⟩)],
   ["sys-cow-img"], [], []⟩

/-! ### Tokenization in the words of the specification

The record-reader claim speaks of whitespace-separated tokens; these
definitions render that wording, to be compared with the
single-space splitting the source performs. -/

/-- The characters C `isspace` accepts. -/
def isWhitespaceChar (c : Char) : Bool :=
  if c = ' ' ∨ c = '\t' ∨ c = '\n' ∨ c = '\r' ∨
      c = Char.ofNat 11 ∨ c = Char.ofNat 12 then true
  else false

def wsTokensAux : List Char → List Char → List String
  | [], acc => if acc = [] then [] else [String.mk acc.reverse]
  | c :: cs, acc =>
    if isWhitespaceChar c then
      (if acc = [] then [] else [String.mk acc.reverse]) ++ wsTokensAux cs []
    else wsTokensAux cs (c :: acc)

/-- The whitespace-separated tokens of a string, in order, empty tokens
dropped. -/
def wsTokens (s : String) : List String := wsTokensAux s.toList []

/-- The acceptance condition exactly as the record-reader claim words it:
the contents consist of exactly seven whitespace-separated tokens whose
first token is a snapshot-state name and whose remaining six tokens parse
as unsigned integers. -/
def claimSevenWhitespaceTokens (contents : String) : Bool :=
  match wsTokens contents with
  | [t0, t1, t2, t3, t4, t5, t6] =>
    (parseSnapshotState t0).isSome && (parseUint64 t1.toList).isSome &&
    (parseUint64 t2.toList).isSome && (parseUint64 t3.toList).isSome &&
    (parseUint64 t4.toList).isSome && (parseUint64 t5.toList).isSome &&
    (parseUint64 t6.toList).isSome
  | _ => false

/-! ### Supporting lemmas -/

theorem splitChar_ne_nil (d : Char) (l : List Char) : splitChar d l ≠ [] := by
  cases l with
  | nil => simp [splitChar]
  | cons c cs =>
    simp only [splitChar]
    split <;> simp

theorem splitChar_cons_of_eq (d : Char) (cs : List Char) :
    splitChar d (d :: cs) = [] :: splitChar d cs := by
  simp [splitChar]

theorem splitChar_cons_of_ne (d c : Char) (cs : List Char) (h : c ≠ d) :
    splitChar d (c :: cs) =
      (c :: (splitChar d cs).headI) :: (splitChar d cs).tail := by
  simp [splitChar, h]

theorem splitChar_append_of_not_mem (d : Char) (t rest : List Char)
    (h : d ∉ t) :
    splitChar d (t ++ rest) =
      (t ++ (splitChar d rest).headI) :: (splitChar d rest).tail := by
  induction t with
  | nil =>
    simp only [List.nil_append]
    rcases hr : splitChar d rest with _ | ⟨p, ps⟩
    · exact absurd hr (splitChar_ne_nil d rest)
    · simp
  | cons c cs ih =>
    have hc : c ≠ d := fun hcd => h (hcd ▸ List.mem_cons_self c cs)
    have hcs : d ∉ cs := fun hm => h (List.mem_cons_of_mem c hm)
    rw [List.cons_append, splitChar_cons_of_ne d c (cs ++ rest) hc, ih hcs]
    simp

theorem splitChar_joinWith (d : Char) (ts : List (List Char))
    (hne : ts ≠ []) (h : ∀ t ∈ ts, d ∉ t) :
    splitChar d (joinWith d ts) = ts := by
  induction ts with
  | nil => exact absurd rfl hne
  | cons t rest ih =>
    cases rest with
    | nil =>
      have hd : d ∉ t := h t (List.mem_cons_self t [])
      have := splitChar_append_of_not_mem d t [] hd
      simpa [joinWith, splitChar] using this
    | cons u us =>
      have hd : d ∉ t := h t (List.mem_cons_self t _)
      have hrec : splitChar d (joinWith d (u :: us)) = u :: us :=
        ih (by simp) (fun x hx => h x (List.mem_cons_of_mem t hx))
      have : joinWith d (t :: u :: us) = t ++ d :: joinWith d (u :: us) := rfl
      rw [this, splitChar_append_of_not_mem d t (d :: joinWith d (u :: us)) hd,
        splitChar_cons_of_eq, hrec]
      simp

/-! ### Decimal numerals

`std::to_string` on an unsigned integer and `android::base::ParseUint`
(restricted to the decimal numerals the state store actually writes). -/

theorem natDigitsRevFuel_congr :
    ∀ (n f1 f2 : Nat), n < f1 → n < f2 →
      natDigitsRevFuel f1 n = natDigitsRevFuel f2 n := by
  intro n
  induction n using Nat.strong_induction_on with
  | _ n ih =>
    intro f1 f2 h1 h2
    cases f1 with
    | zero => omega
    | succ fa =>
      cases f2 with
      | zero => omega
      | succ fb =>
        simp only [natDigitsRevFuel]
        by_cases h : n < 10
        · simp [h]
        · have hdiv : n / 10 < n := Nat.div_lt_self (by omega) (by omega)
          simp only [h, if_false]
          rw [ih (n / 10) hdiv fa fb (by omega) (by omega)]

theorem decValue_append_digit (l : List Char) (c : Char) :
    decValue (l ++ [c]) = 10 * decValue l + charToDigit c := by
  simp [decValue, List.foldl_append]

theorem digitChar_isDigit {n : Nat} (h : n < 10) : (Nat.digitChar n).isDigit = true := by
  interval_cases n <;> decide

theorem charToDigit_digitChar {n : Nat} (h : n < 10) : charToDigit (Nat.digitChar n) = n := by
  interval_cases n <;> decide

theorem digitChar_ne_space {n : Nat} (h : n < 10) : Nat.digitChar n ≠ ' ' := by
  interval_cases n <;> decide

theorem natDigitsRev_small {n : Nat} (h : n < 10) :
    natDigitsRev n = [Nat.digitChar n] := by
  rw [natDigitsRev]; simp [natDigitsRevFuel, h]

theorem natDigitsRev_big {n : Nat} (h : ¬ n < 10) :
    natDigitsRev n = Nat.digitChar (n % 10) :: natDigitsRev (n / 10) := by
  have hdiv : n / 10 < n := Nat.div_lt_self (by omega) (by omega)
  rw [natDigitsRev]
  simp only [natDigitsRevFuel, h, if_false]
  rw [natDigitsRevFuel_congr (n / 10) n (n / 10 + 1) (by omega) (by omega)]
  rfl

theorem decValue_natToChars (n : Nat) : decValue (natToChars n) = n := by
  induction n using Nat.strong_induction_on with
  | _ n ih =>
    by_cases h : n < 10
    · simp [natToChars, natDigitsRev_small h, decValue, charToDigit_digitChar h]
    · have hrec : decValue (natToChars (n / 10)) = n / 10 :=
        ih (n / 10) (Nat.div_lt_self (by omega) (by omega))
      have : natToChars n = natToChars (n / 10) ++ [Nat.digitChar (n % 10)] := by
        simp [natToChars, natDigitsRev_big h]
      rw [this, decValue_append_digit, hrec, charToDigit_digitChar (Nat.mod_lt n (by omega))]
      omega

theorem natDigitsRev_all_isDigit (n : Nat) : (natDigitsRev n).all Char.isDigit = true := by
  induction n using Nat.strong_induction_on with
  | _ n ih =>
    by_cases h : n < 10
    · simp [natDigitsRev_small h, digitChar_isDigit h]
    · have := ih (n / 10) (Nat.div_lt_self (by omega) (by omega))
      rw [natDigitsRev_big h]
      simp [this, digitChar_isDigit (Nat.mod_lt n (by omega))]

theorem natToChars_all_isDigit (n : Nat) : (natToChars n).all Char.isDigit = true := by
  simp only [natToChars, List.all_reverse]
  exact natDigitsRev_all_isDigit n

theorem natDigitsRev_ne_nil (n : Nat) : natDigitsRev n ≠ [] := by
  by_cases h : n < 10
  · simp [natDigitsRev_small h]
  · simp [natDigitsRev_big h]

theorem natToChars_ne_nil (n : Nat) : natToChars n ≠ [] := by
  simpa [natToChars] using natDigitsRev_ne_nil n

theorem space_not_mem_natToChars (n : Nat) : ' ' ∉ natToChars n := by
  intro hmem
  have hall := natToChars_all_isDigit n
  rw [List.all_eq_true] at hall
  have := hall ' ' hmem
  simp [Char.isDigit] at this

theorem parseUint64_natToChars {n : Nat} (h : n ≤ uint64Max) :
    parseUint64 (natToChars n) = some n := by
  simp [parseUint64, natToChars_ne_nil, natToChars_all_isDigit, decValue_natToChars, h]

theorem splitSpace_joinSpace (l : List String) (hne : l ≠ [])
    (h : ∀ p ∈ l, ' ' ∉ p.toList) :
    splitSpace (joinSpace l) = l := by
  have hmap : ∀ t ∈ l.map String.toList, ' ' ∉ t := by
    intro t ht
    rcases List.mem_map.mp ht with ⟨p, hp, rfl⟩
    exact h p hp
  have hmne : l.map String.toList ≠ [] := by
    intro hc; exact hne (List.map_eq_nil_iff.mp hc)
  unfold splitSpace joinSpace
  have : (String.mk (joinWith ' ' (l.map String.toList))).toList =
      joinWith ' ' (l.map String.toList) := rfl
  rw [this, splitChar_joinWith ' ' (l.map String.toList) hmne hmap,
    List.map_map]
  have : String.mk ∘ String.toList = id := by
    funext s; cases s; rfl
  rw [this, List.map_id]

/-! ### The update-state and snapshot-state enumerations

`UpdateState` from `libsnapshot/snapshot.h` and `SnapshotManager::SnapshotState`. -/

@[simp] theorem assocGet_nil {α : Type} (key : String) :
    assocGet ([] : List (String × α)) key = Option.none := rfl

theorem assocGet_set_self {α : Type} (l : List (String × α)) (key : String) (v : α) :
    assocGet (assocSet l key v) key = some v := by
  induction l with
  | nil => simp [assocSet, assocGet]
  | cons p rest ih =>
    obtain ⟨k, w⟩ := p
    by_cases h : k = key <;> simp [assocSet, assocGet, h, ih]

theorem assocGet_set_other {α : Type} (l : List (String × α)) (key other : String)
    (v : α) (h : key ≠ other) :
    assocGet (assocSet l key v) other = assocGet l other := by
  induction l with
  | nil => simp [assocSet, assocGet, h]
  | cons p rest ih =>
    obtain ⟨k, w⟩ := p
    by_cases hk : k = key
    · subst hk; simp [assocSet, assocGet, h, ih]
    · by_cases ho : k = other <;> simp [assocSet, assocGet, hk, ho, ih, Ne.symm h]

theorem assocGet_erase_self {α : Type} (l : List (String × α)) (key : String) :
    assocGet (assocErase l key) key = Option.none := by
  induction l with
  | nil => simp [assocErase]
  | cons p rest ih =>
    obtain ⟨k, w⟩ := p
    by_cases h : k = key <;> simp [assocErase, assocGet, h, ih]

theorem assocGet_erase_other {α : Type} (l : List (String × α)) (key other : String)
    (h : key ≠ other) :
    assocGet (assocErase l key) other = assocGet l other := by
  induction l with
  | nil => simp [assocErase]
  | cons p rest ih =>
    obtain ⟨k, w⟩ := p
    by_cases hk : k = key
    · subst hk; simp [assocErase, assocGet, h, ih]
    · by_cases ho : k = other <;> simp [assocErase, assocGet, hk, ho, ih, Ne.symm h]

/-! ### The device-mapper client (`libdm/dm.cpp`)

A live device has a current table (a list of targets) and a suspension
flag.  Each target carries both the table parameter string returned by
`GetTableInfo` and the runtime status line returned by `GetTableStatus`.
Kernel ioctls are modelled as reliable: they fail exactly when the code
checks for a missing device or a duplicate name. -/

theorem natToString_toList (n : Nat) : (natToString n).toList = natToChars n := rfl

theorem natToString_data (n : Nat) : (natToString n).data = natToChars n := rfl

/-! ### Teardown always reports success -/

theorem dmDeleteDeviceIfExists_fst (s : Sys) (n : String) :
    (dmDeleteDeviceIfExists s n).1 = true := by
  unfold dmDeleteDeviceIfExists dmDeleteDevice dmGetState
  cases h : assocGet s.dm n with
  | none => simp [h]
  | some d => cases hd : d.suspended <;> simp [h, hd]

theorem unmapImageIfExists_fst (s : Sys) (n : String) :
    (unmapImageIfExists s n).1 = true := rfl

theorem unmapSnapshot_fst (s : Sys) (n : String) : (unmapSnapshot s n).1 = true := by
  unfold unmapSnapshot
  simp [dmDeleteDeviceIfExists_fst]

theorem unmapCowDevices_fst (s : Sys) (n : String) : (unmapCowDevices s n).1 = true := by
  unfold unmapCowDevices
  simp [dmDeleteDeviceIfExists_fst, unmapImageIfExists_fst]

theorem unmapPartitionWithSnapshot_fst (s : Sys) (n : String) :
    (unmapPartitionWithSnapshot s n).1 = true := by
  unfold unmapPartitionWithSnapshot
  simp [unmapSnapshot_fst, unmapCowDevices_fst, dmDeleteDeviceIfExists_fst]

theorem deleteSnapshot_fst (s : Sys) (n : String) : (deleteSnapshot s n).1 = true := by
  unfold deleteSnapshot deleteBackingImage
  simp only [unmapCowDevices_fst, Bool.not_true, Bool.false_eq_true, if_false]
  split <;> simp

/-! ### Claim theorems -/

/-- C8: `UnmapPartitionWithSnapshot` is idempotent — for every system state
and partition name, invoking it twice in succession succeeds both times,
because every teardown step treats an absent device as success. -/
theorem C8_unmapPartitionWithSnapshot_idempotent (s : Sys) (p : String) :
    (unmapPartitionWithSnapshot s p).1 = true ∧
    (unmapPartitionWithSnapshot (unmapPartitionWithSnapshot s p).2 p).1 = true :=
  ⟨unmapPartitionWithSnapshot_fst s p, unmapPartitionWithSnapshot_fst _ p⟩

theorem parseSnapshotState_stateString (st : SnapshotState) :
    parseSnapshotState (snapshotStateString st) = some st := by
  cases st <;> decide

theorem stateString_no_space (st : SnapshotState) :
    ' ' ∉ (snapshotStateString st).toList := by
  cases st <;> decide

theorem readSnapshotStatusContents_roundtrip (st : SnapshotStatus)
    (h1 : st.device_size ≤ uint64Max) (h2 : st.snapshot_size ≤ uint64Max)
    (h3 : st.cow_partition_size ≤ uint64Max) (h4 : st.cow_file_size ≤ uint64Max)
    (h5 : st.sectors_allocated ≤ uint64Max) (h6 : st.metadata_sectors ≤ uint64Max) :
    readSnapshotStatusContents (writeSnapshotStatusContents st) = some st := by
  have hsplit : splitSpace (writeSnapshotStatusContents st) =
      [snapshotStateString st.state, natToString st.device_size,
       natToString st.snapshot_size, natToString st.cow_partition_size,
       natToString st.cow_file_size, natToString st.sectors_allocated,
       natToString st.metadata_sectors] := by
    apply splitSpace_joinSpace
    · simp
    · intro p hp
      simp only [List.mem_cons, List.not_mem_nil, or_false] at hp
      rcases hp with rfl | rfl | rfl | rfl | rfl | rfl | rfl
      · exact stateString_no_space st.state
      all_goals exact space_not_mem_natToChars _
  unfold readSnapshotStatusContents
  rw [hsplit]
  simp [parseSnapshotState_stateString, natToString_toList, natToString_data,
    parseUint64_natToChars, h1, h2, h3, h4, h5, h6]

theorem mk_append_drop (c old : String) (h : old.data.length ≤ c.data.length) :
    String.mk (c.data ++ old.data.drop c.data.length) = c := by
  rw [List.drop_eq_nil_of_le h, List.append_nil]

theorem writeSnapshotStatusSys_records_of_le (s : Sys) (name : String)
    (st : SnapshotStatus)
    (hold : ∀ c, assocGet s.records name = some c →
      c.data.length ≤ (writeSnapshotStatusContents st).data.length) :
    (writeSnapshotStatusSys s name st).records =
      assocSet s.records name (writeSnapshotStatusContents st) := by
  unfold writeSnapshotStatusSys
  dsimp only
  cases hc : assocGet s.records name with
  | none =>
    dsimp only
    rw [mk_append_drop _ _ (Nat.zero_le _)]
  | some c =>
    dsimp only
    rw [mk_append_drop _ _ (hold c hc)]

/-- C9: counterexample to the unconditional round-trip.  A pre-existing
record longer than the new serialization leaves its trailing bytes in the
file (`WriteSnapshotStatus` opens without `O_TRUNC` and never truncates),
so the subsequent `ReadSnapshotStatus` no longer sees exactly seven
tokens and fails instead of returning the written status. -/
theorem C9_snapshot_record_roundtrip_counterexample :
    readSnapshotStatusSys
      (writeSnapshotStatusSys
        (⟨"_b", "none", Option.none,
          [("sys", "created 1000000 1000000 0 0 0 0")], [], [], [], []⟩ : Sys)
        "sys" ⟨SnapshotState.none, 0, 0, 0, 0, 0, 0⟩) "sys" = Option.none := by
  decide

/-- C9 (amended): snapshot records round-trip through the state store
when no longer record pre-exists under the name — writing any
`SnapshotStatus` (whose `uint64_t` fields are in range) under such a name
and reading the same name back succeeds and returns identical fields. -/
theorem C9_snapshot_record_roundtrip_amended (s : Sys) (name : String)
    (st : SnapshotStatus)
    (h1 : st.device_size ≤ uint64Max) (h2 : st.snapshot_size ≤ uint64Max)
    (h3 : st.cow_partition_size ≤ uint64Max) (h4 : st.cow_file_size ≤ uint64Max)
    (h5 : st.sectors_allocated ≤ uint64Max) (h6 : st.metadata_sectors ≤ uint64Max)
    (hold : ∀ c, assocGet s.records name = some c →
      c.data.length ≤ (writeSnapshotStatusContents st).data.length) :
    readSnapshotStatusSys (writeSnapshotStatusSys s name st) name = some st := by
  unfold readSnapshotStatusSys
  rw [writeSnapshotStatusSys_records_of_le s name st hold, assocGet_set_self]
  exact readSnapshotStatusContents_roundtrip st h1 h2 h3 h4 h5 h6

theorem C9_snapshot_record_roundtrip_amended_witness :
    readSnapshotStatusSys
      (writeSnapshotStatusSys (⟨"_b", "none", Option.none, [], [], [], [], []⟩ : Sys)
        "sys" ⟨SnapshotState.created, 1024, 512, 512, 0, 3, 7⟩) "sys" =
      some ⟨SnapshotState.created, 1024, 512, 512, 0, 3, 7⟩ :=
  C9_snapshot_record_roundtrip_amended _ "sys" _ (by decide) (by decide) (by decide)
    (by decide) (by decide) (by decide) (fun c hc => Option.noConfusion hc)

/-- C4: `FinishedSnapshotWrites` is idempotent from `Unverified`; from
`Initiated` it writes the live slot suffix to the boot indicator and
persists `Unverified`; from any other state it fails without modifying
anything. -/
theorem C4_finishedSnapshotWrites_spec (s : Sys) :
    (readUpdateStateSys s = UpdateState.unverified → finishedSnapshotWrites s = (true, s)) ∧
    (readUpdateStateSys s = UpdateState.initiated →
      finishedSnapshotWrites s =
        (true, { s with bootIndicator := some s.slotSuffix, stateFile := "unverified" })) ∧
    (readUpdateStateSys s ≠ UpdateState.unverified →
      readUpdateStateSys s ≠ UpdateState.initiated →
      finishedSnapshotWrites s = (false, s)) := by
  refine ⟨fun h => ?_, fun h => ?_, fun h1 h2 => ?_⟩
  · unfold finishedSnapshotWrites
    rw [h]
  · unfold finishedSnapshotWrites
    rw [h]
    simp [writeUpdateState, updateStateString]
  · unfold finishedSnapshotWrites
    cases hv : readUpdateStateSys s <;> simp_all

/-! ### The record reader accepts only whitespace-clean records (C7) -/

theorem headI_cons_tail {α : Type} [Inhabited α] (r : List α) (h : r ≠ []) :
    r.headI :: r.tail = r := by
  cases r with
  | nil => exact absurd rfl h
  | cons a as => rfl

theorem joinWith_cons_head (d c : Char) (h : List Char) (t : List (List Char)) :
    joinWith d ((c :: h) :: t) = c :: joinWith d (h :: t) := by
  cases t <;> rfl

theorem joinWith_splitChar (d : Char) (l : List Char) :
    joinWith d (splitChar d l) = l := by
  induction l with
  | nil => rfl
  | cons c cs ih =>
    by_cases h : c = d
    · subst h
      rw [splitChar_cons_of_eq]
      rcases hr : splitChar c cs with _ | ⟨t, ts⟩
      · exact absurd hr (splitChar_ne_nil c cs)
      · rw [hr] at ih
        show joinWith c ([] :: t :: ts) = c :: cs
        have hstep : joinWith c ([] :: t :: ts) = [] ++ c :: joinWith c (t :: ts) := rfl
        rw [hstep, List.nil_append, ih]
    · rw [splitChar_cons_of_ne d c cs h, joinWith_cons_head,
        headI_cons_tail _ (splitChar_ne_nil d cs), ih]

theorem joinSpace_splitSpace (s : String) : joinSpace (splitSpace s) = s := by
  unfold joinSpace splitSpace
  rw [List.map_map]
  have hid : String.toList ∘ String.mk = id := by funext l; rfl
  rw [hid, List.map_id, joinWith_splitChar]
  cases s; rfl

theorem mk_toList (s : String) : String.mk s.toList = s := by cases s; rfl

theorem wsTokensAux_append_token (rest : List Char) :
    ∀ (t acc : List Char), (∀ c ∈ t, isWhitespaceChar c = false) →
      wsTokensAux (t ++ rest) acc = wsTokensAux rest (t.reverse ++ acc) := by
  intro t
  induction t with
  | nil => intro acc _; simp
  | cons c cs ih =>
    intro acc h
    have hc : isWhitespaceChar c = false := h c (List.mem_cons_self c cs)
    have hcs : ∀ x ∈ cs, isWhitespaceChar x = false :=
      fun x hx => h x (List.mem_cons_of_mem c hx)
    show wsTokensAux (c :: (cs ++ rest)) acc = _
    rw [show wsTokensAux (c :: (cs ++ rest)) acc =
        if isWhitespaceChar c then
          (if acc = [] then [] else [String.mk acc.reverse]) ++ wsTokensAux (cs ++ rest) []
        else wsTokensAux (cs ++ rest) (c :: acc) from rfl,
      hc]
    rw [if_neg (by simp)]
    rw [ih (c :: acc) hcs]
    simp

theorem wsTokensAux_ws_head (c : Char) (rest acc : List Char)
    (hc : isWhitespaceChar c = true) :
    wsTokensAux (c :: rest) acc =
      (if acc = [] then [] else [String.mk acc.reverse]) ++ wsTokensAux rest [] := by
  rw [show wsTokensAux (c :: rest) acc =
      if isWhitespaceChar c then
        (if acc = [] then [] else [String.mk acc.reverse]) ++ wsTokensAux rest []
      else wsTokensAux rest (c :: acc) from rfl,
    hc]
  simp

theorem wsTokens_joinWith :
    ∀ (ts : List (List Char)), ts ≠ [] →
      (∀ t ∈ ts, t ≠ [] ∧ ∀ c ∈ t, isWhitespaceChar c = false) →
      wsTokensAux (joinWith ' ' ts) [] = ts.map (fun t => String.mk t) := by
  intro ts
  induction ts with
  | nil => intro h; exact absurd rfl h
  | cons t rest ih =>
    intro _ hall
    obtain ⟨htne, htws⟩ := hall t (List.mem_cons_self t rest)
    cases rest with
    | nil =>
      show wsTokensAux (joinWith ' ' [t]) [] = [String.mk t]
      have hj : joinWith ' ' [t] = t ++ [] := by simp [joinWith]
      rw [hj, wsTokensAux_append_token [] t [] htws]
      simp [wsTokensAux, htne]
    | cons u us =>
      have hrest : ∀ x ∈ u :: us, x ≠ [] ∧ ∀ c ∈ x, isWhitespaceChar c = false :=
        fun x hx => hall x (List.mem_cons_of_mem t hx)
      have hjoin : joinWith ' ' (t :: u :: us) = t ++ ' ' :: joinWith ' ' (u :: us) := rfl
      rw [hjoin, wsTokensAux_append_token _ t [] htws,
        wsTokensAux_ws_head ' ' _ _ (by decide), ih (by simp) hrest]
      simp [htne]

theorem parseSnapshotState_isSome_cases (t : String)
    (h : (parseSnapshotState t).isSome = true) :
    t = "none" ∨ t = "created" ∨ t = "merging" ∨ t = "merge-completed" := by
  unfold parseSnapshotState at h
  split_ifs at h with h1 h2 h3 h4
  · exact Or.inl h1
  · exact Or.inr (Or.inl h2)
  · exact Or.inr (Or.inr (Or.inl h3))
  · exact Or.inr (Or.inr (Or.inr h4))
  · simp at h

theorem parseUint64_isSome_digits (t : List Char)
    (h : (parseUint64 t).isSome = true) :
    t ≠ [] ∧ t.all Char.isDigit = true := by
  unfold parseUint64 at h
  split_ifs at h with hc
  · exact ⟨hc.1, hc.2.1⟩
  · simp at h

theorem isDigit_not_ws (c : Char) (h : c.isDigit = true) :
    isWhitespaceChar c = false := by
  unfold isWhitespaceChar
  split_ifs with hw
  · rcases hw with rfl | rfl | rfl | rfl | rfl | rfl <;> exact absurd h (by decide)
  · rfl

theorem stateToken_clean (t : String) (h : (parseSnapshotState t).isSome = true) :
    t.toList ≠ [] ∧ ∀ c ∈ t.toList, isWhitespaceChar c = false := by
  rcases parseSnapshotState_isSome_cases t h with rfl | rfl | rfl | rfl <;>
    exact ⟨by decide, by decide⟩

theorem uintToken_clean (t : String) (h : (parseUint64 t.toList).isSome = true) :
    t.toList ≠ [] ∧ ∀ c ∈ t.toList, isWhitespaceChar c = false := by
  obtain ⟨hne, hdig⟩ := parseUint64_isSome_digits t.toList h
  refine ⟨hne, fun c hc => ?_⟩
  exact isDigit_not_ws c ((List.all_eq_true.mp hdig) c hc)

theorem read_accept_pieces (contents : String)
    (h : (readSnapshotStatusContents contents).isSome = true) :
    ∃ p0 p1 p2 p3 p4 p5 p6,
      splitSpace contents = [p0, p1, p2, p3, p4, p5, p6] ∧
      (parseSnapshotState p0).isSome = true ∧
      (parseUint64 p1.toList).isSome = true ∧ (parseUint64 p2.toList).isSome = true ∧
      (parseUint64 p3.toList).isSome = true ∧ (parseUint64 p4.toList).isSome = true ∧
      (parseUint64 p5.toList).isSome = true ∧ (parseUint64 p6.toList).isSome = true := by
  unfold readSnapshotStatusContents at h
  split at h
  next p0 p1 p2 p3 p4 p5 p6 heq =>
    refine ⟨p0, p1, p2, p3, p4, p5, p6, heq, ?_⟩
    rcases h0 : parseSnapshotState p0 with _ | state
    · rw [h0] at h; simp at h
    rcases hA : parseUint64 p1.toList with _ | a
    · rw [h0, hA] at h; simp at h
    rcases hB : parseUint64 p2.toList with _ | b
    · rw [h0, hA, hB] at h; simp at h
    rcases hC : parseUint64 p3.toList with _ | c
    · rw [h0, hA, hB, hC] at h; simp at h
    rcases hD : parseUint64 p4.toList with _ | d
    · rw [h0, hA, hB, hC, hD] at h; simp at h
    rcases hE : parseUint64 p5.toList with _ | e
    · rw [h0, hA, hB, hC, hD, hE] at h; simp at h
    rcases hF : parseUint64 p6.toList with _ | f
    · rw [h0, hA, hB, hC, hD, hE, hF] at h; simp at h
    simp [h0, hA, hB, hC, hD, hE, hF]
  next =>
    simp at h

theorem splitChars_of_splitSpace {contents : String} {p0 p1 p2 p3 p4 p5 p6 : String}
    (heq : splitSpace contents = [p0, p1, p2, p3, p4, p5, p6]) :
    splitChar ' ' contents.toList =
      [p0.toList, p1.toList, p2.toList, p3.toList, p4.toList, p5.toList, p6.toList] := by
  have hmap := congrArg (List.map String.toList) heq
  rw [splitSpace, List.map_map] at hmap
  have hid : String.toList ∘ String.mk = id := by funext l; rfl
  rw [hid, List.map_id] at hmap
  simpa using hmap

theorem getLast?_append_right {α : Type} (l1 l2 : List α) (h : l2 ≠ []) :
    (l1 ++ l2).getLast? = l2.getLast? := by
  rw [List.getLast?_append]
  cases hg : l2.getLast? with
  | none => exact absurd (List.getLast?_eq_none_iff.mp hg) h
  | some x => rfl

theorem joinWith_last_ne_nil (d : Char) :
    ∀ (ts : List (List Char)) (t : List Char), t ≠ [] →
      joinWith d (ts ++ [t]) ≠ [] := by
  intro ts t ht
  cases ts with
  | nil => simpa [joinWith] using ht
  | cons a as =>
    have hstep : joinWith d ((a :: as) ++ [t]) = a ++ d :: joinWith d (as ++ [t]) := by
      rw [List.cons_append]
      cases hcase : as ++ [t] with
      | nil => exact absurd hcase (by simp)
      | cons b bs => rfl
    rw [hstep]
    cases a <;> simp

theorem getLast?_joinWith (d : Char) :
    ∀ (ts : List (List Char)) (t : List Char), t ≠ [] →
      (joinWith d (ts ++ [t])).getLast? = t.getLast? := by
  intro ts
  induction ts with
  | nil => intro t ht; simp [joinWith]
  | cons a as ih =>
    intro t ht
    have hstep : joinWith d ((a :: as) ++ [t]) = a ++ d :: joinWith d (as ++ [t]) := by
      rw [List.cons_append]
      cases hcase : as ++ [t] with
      | nil => exact absurd hcase (by simp)
      | cons b bs => rfl
    rw [hstep, getLast?_append_right a _ (by simp)]
    have hJ : joinWith d (as ++ [t]) ≠ [] := joinWith_last_ne_nil d as t ht
    rw [show (d :: joinWith d (as ++ [t])) = [d] ++ joinWith d (as ++ [t]) from rfl,
      getLast?_append_right [d] _ hJ]
    exact ih t ht

/-- C7: `ReadSnapshotStatus` accepts a record only if its contents consist
of exactly seven whitespace-separated tokens whose first token is a
snapshot-state name and whose remaining six tokens parse as unsigned
integers; in particular any content ending in whitespace — a trailing
space or a trailing newline — is rejected. -/
theorem C7_readSnapshotStatus_only_whitespace_tokens :
    (∀ contents : String, (readSnapshotStatusContents contents).isSome = true →
      claimSevenWhitespaceTokens contents = true) ∧
    (∀ (l : List Char) (c : Char), isWhitespaceChar c = true →
      readSnapshotStatusContents (String.mk (l ++ [c])) = Option.none) := by
  constructor
  · intro contents h
    obtain ⟨p0, p1, p2, p3, p4, p5, p6, heq, h0, h1, h2, h3, h4, h5, h6⟩ :=
      read_accept_pieces contents h
    have hchars := splitChars_of_splitSpace heq
    have hjoin : joinWith ' '
        [p0.toList, p1.toList, p2.toList, p3.toList, p4.toList, p5.toList, p6.toList] =
        contents.toList := by
      rw [← hchars, joinWith_splitChar]
    have hclean : ∀ t ∈ [p0.toList, p1.toList, p2.toList, p3.toList, p4.toList,
        p5.toList, p6.toList], t ≠ [] ∧ ∀ c ∈ t, isWhitespaceChar c = false := by
      intro t hmem
      simp only [List.mem_cons, List.not_mem_nil, or_false] at hmem
      rcases hmem with rfl | rfl | rfl | rfl | rfl | rfl | rfl
      · exact stateToken_clean p0 h0
      · exact uintToken_clean p1 h1
      · exact uintToken_clean p2 h2
      · exact uintToken_clean p3 h3
      · exact uintToken_clean p4 h4
      · exact uintToken_clean p5 h5
      · exact uintToken_clean p6 h6
    have hws : wsTokens contents = [p0, p1, p2, p3, p4, p5, p6] := by
      unfold wsTokens
      rw [← hjoin, wsTokens_joinWith _ (by simp) hclean]
      simp [mk_toList]
    unfold claimSevenWhitespaceTokens
    rw [hws]
    show ((parseSnapshotState p0).isSome && (parseUint64 p1.toList).isSome &&
      (parseUint64 p2.toList).isSome && (parseUint64 p3.toList).isSome &&
      (parseUint64 p4.toList).isSome && (parseUint64 p5.toList).isSome &&
      (parseUint64 p6.toList).isSome) = true
    rw [h0, h1, h2, h3, h4, h5, h6]
    rfl
  · intro l c hc
    rcases hrd : readSnapshotStatusContents (String.mk (l ++ [c])) with _ | st
    · rfl
    exfalso
    have hsome : (readSnapshotStatusContents (String.mk (l ++ [c]))).isSome = true := by
      rw [hrd]; rfl
    obtain ⟨p0, p1, p2, p3, p4, p5, p6, heq, h0, h1, h2, h3, h4, h5, h6⟩ :=
      read_accept_pieces _ hsome
    have hchars := splitChars_of_splitSpace heq
    have hlchars : (String.mk (l ++ [c])).toList = l ++ [c] := rfl
    rw [hlchars] at hchars
    have hjoin : joinWith ' '
        [p0.toList, p1.toList, p2.toList, p3.toList, p4.toList, p5.toList, p6.toList] =
        l ++ [c] := by
      rw [← hchars, joinWith_splitChar]
    obtain ⟨hne6, hdig6⟩ := parseUint64_isSome_digits p6.toList h6
    have hlast : (l ++ [c]).getLast? = p6.toList.getLast? := by
      rw [← hjoin]
      exact getLast?_joinWith ' '
        [p0.toList, p1.toList, p2.toList, p3.toList, p4.toList, p5.toList] p6.toList hne6
    rw [List.getLast?_concat] at hlast
    have hcmem : c ∈ p6.toList := List.mem_of_getLast?_eq_some hlast.symm
    have hcdig : c.isDigit = true := (List.all_eq_true.mp hdig6) c hcmem
    rw [isDigit_not_ws c hcdig] at hc
    exact Bool.false_ne_true hc

theorem C7_readSnapshotStatus_witness :
    (readSnapshotStatusContents "none 0 0 0 0 0 0").isSome = true ∧
    claimSevenWhitespaceTokens "none 0 0 0 0 0 0" = true ∧
    isWhitespaceChar (Char.ofNat 10) = true ∧
    readSnapshotStatusContents
      (String.mk ("created 1 2 3 4 5 6".toList ++ [Char.ofNat 10])) = Option.none :=
  ⟨by decide,
   C7_readSnapshotStatus_only_whitespace_tokens.1 "none 0 0 0 0 0 0" (by decide),
   by decide,
   C7_readSnapshotStatus_only_whitespace_tokens.2 "created 1 2 3 4 5 6".toList
     (Char.ofNat 10) (by decide)⟩

theorem C4_finishedSnapshotWrites_witness :
    readUpdateStateSys (⟨"_b", "initiated", Option.none, [], [], [], [], []⟩ : Sys) =
      UpdateState.initiated ∧
    finishedSnapshotWrites (⟨"_b", "initiated", Option.none, [], [], [], [], []⟩ : Sys) =
      (true, (⟨"_b", "unverified", some "_b", [], [], [], [], []⟩ : Sys)) :=
  ⟨by decide,
   (C4_finishedSnapshotWrites_spec ⟨"_b", "initiated", Option.none, [], [], [], [], []⟩).2.1
     (by decide)⟩

/-! ### Frame lemmas: what each operation may touch -/

theorem changesStoresAndRecords_refl (s : Sys) : changesStoresAndRecords s s :=
  ⟨rfl, rfl, rfl, rfl, rfl⟩

theorem changesStoresOnly_refl (s : Sys) : changesStoresOnly s s :=
  ⟨changesStoresAndRecords_refl s, rfl⟩

theorem changesDmOnly_refl (s : Sys) : changesDmOnly s s :=
  ⟨changesStoresOnly_refl s, rfl⟩

theorem changesStoresAndRecords_trans {s t u : Sys}
    (h1 : changesStoresAndRecords s t) (h2 : changesStoresAndRecords t u) :
    changesStoresAndRecords s u :=
  ⟨h2.1.trans h1.1, h2.2.1.trans h1.2.1, h2.2.2.1.trans h1.2.2.1,
   h2.2.2.2.1.trans h1.2.2.2.1, h2.2.2.2.2.trans h1.2.2.2.2⟩

theorem changesStoresOnly_trans {s t u : Sys}
    (h1 : changesStoresOnly s t) (h2 : changesStoresOnly t u) :
    changesStoresOnly s u :=
  ⟨changesStoresAndRecords_trans h1.1 h2.1, h2.2.trans h1.2⟩

theorem changesDmOnly_trans {s t u : Sys}
    (h1 : changesDmOnly s t) (h2 : changesDmOnly t u) :
    changesDmOnly s u :=
  ⟨changesStoresOnly_trans h1.1 h2.1, h2.2.trans h1.2⟩

theorem sar_of_storesOnly {s t : Sys} (h : changesStoresOnly s t) :
    changesStoresAndRecords s t := h.1

theorem sar_of_dmOnly {s t : Sys} (h : changesDmOnly s t) :
    changesStoresAndRecords s t := h.1.1

theorem storesOnly_of_dmOnly {s t : Sys} (h : changesDmOnly s t) :
    changesStoresOnly s t := h.1

theorem dmDeleteDevice_frame (s : Sys) (n : String) :
    changesDmOnly s (dmDeleteDevice s n).2 := by
  unfold dmDeleteDevice
  cases h : assocGet s.dm n <;> exact ⟨⟨⟨rfl, rfl, rfl, rfl, rfl⟩, rfl⟩, rfl⟩

theorem dmDeleteDeviceIfExists_frame (s : Sys) (n : String) :
    changesDmOnly s (dmDeleteDeviceIfExists s n).2 := by
  unfold dmDeleteDeviceIfExists
  split
  · exact changesDmOnly_refl s
  · exact dmDeleteDevice_frame s n

theorem dmLoadTableAndActivate_frame (s : Sys) (n : String) (table : List DmTarget) :
    changesDmOnly s (dmLoadTableAndActivate s n table).2 := by
  unfold dmLoadTableAndActivate
  cases h : assocGet s.dm n <;> exact ⟨⟨⟨rfl, rfl, rfl, rfl, rfl⟩, rfl⟩, rfl⟩

theorem dmCreateDevice_frame (s : Sys) (n : String) (table : List DmTarget) :
    changesDmOnly s (dmCreateDevice s n table).2 := by
  unfold dmCreateDevice
  cases h : assocGet s.dm n <;> exact ⟨⟨⟨rfl, rfl, rfl, rfl, rfl⟩, rfl⟩, rfl⟩

theorem unmapImageIfExists_frame (s : Sys) (n : String) :
    changesDmOnly s (unmapImageIfExists s n).2 :=
  ⟨⟨⟨rfl, rfl, rfl, rfl, rfl⟩, rfl⟩, rfl⟩

theorem mapImageDevice_frame (s : Sys) (n : String) :
    changesDmOnly s (mapImageDevice s n).2 := by
  unfold mapImageDevice
  split
  · cases h : assocGet s.dm n <;> exact ⟨⟨⟨rfl, rfl, rfl, rfl, rfl⟩, rfl⟩, rfl⟩
  · exact changesDmOnly_refl s

theorem deleteBackingImage_frame (s : Sys) (n : String) :
    changesStoresOnly s (deleteBackingImage s n).2 :=
  ⟨⟨rfl, rfl, rfl, rfl, rfl⟩, rfl⟩

theorem writeSnapshotStatusSys_frame (s : Sys) (n : String) (st : SnapshotStatus) :
    changesStoresAndRecords s (writeSnapshotStatusSys s n st) :=
  ⟨rfl, rfl, rfl, rfl, rfl⟩

theorem unmapSnapshot_frame (s : Sys) (n : String) :
    changesDmOnly s (unmapSnapshot s n).2 := by
  simp only [unmapSnapshot, dmDeleteDeviceIfExists_fst, Bool.not_true, Bool.false_eq_true,
    if_false]
  exact changesDmOnly_trans (dmDeleteDeviceIfExists_frame s n)
    (dmDeleteDeviceIfExists_frame _ _)

theorem unmapCowDevices_frame (s : Sys) (n : String) :
    changesDmOnly s (unmapCowDevices s n).2 := by
  simp only [unmapCowDevices, dmDeleteDeviceIfExists_fst, unmapImageIfExists_fst,
    Bool.not_true, Bool.false_eq_true, if_false]
  exact changesDmOnly_trans (dmDeleteDeviceIfExists_frame s _)
    (unmapImageIfExists_frame _ _)

theorem unmapPartitionWithSnapshot_frame (s : Sys) (n : String) :
    changesDmOnly s (unmapPartitionWithSnapshot s n).2 := by
  simp only [unmapPartitionWithSnapshot, unmapSnapshot_fst, unmapCowDevices_fst,
    dmDeleteDeviceIfExists_fst, Bool.not_true, Bool.false_eq_true, if_false]
  exact changesDmOnly_trans (unmapSnapshot_frame s n)
    (changesDmOnly_trans (unmapCowDevices_frame _ n) (dmDeleteDeviceIfExists_frame _ _))

theorem deleteSnapshot_frame (s : Sys) (n : String) :
    changesStoresAndRecords s (deleteSnapshot s n).2 := by
  simp only [deleteSnapshot, unmapCowDevices_fst, Bool.not_true, Bool.false_eq_true,
    if_false]
  have h1 := sar_of_dmOnly (unmapCowDevices_frame s n)
  split
  · refine changesStoresAndRecords_trans h1 ?_
    refine changesStoresAndRecords_trans
      (sar_of_storesOnly (deleteBackingImage_frame _ (getCowImageDeviceName n))) ?_
    exact ⟨rfl, rfl, rfl, rfl, rfl⟩
  · exact changesStoresAndRecords_trans h1 ⟨rfl, rfl, rfl, rfl, rfl⟩

theorem removeSnapshotList_frame (s : Sys) (ns : List String) :
    changesStoresAndRecords s (removeSnapshotList s ns).2 := by
  induction ns generalizing s with
  | nil => exact changesStoresAndRecords_refl s
  | cons n rest ih =>
    simp only [removeSnapshotList, unmapPartitionWithSnapshot_fst, if_true]
    exact changesStoresAndRecords_trans
      (changesStoresAndRecords_trans (sar_of_dmOnly (unmapPartitionWithSnapshot_frame s n))
        (deleteSnapshot_frame _ n))
      (ih _)

theorem rewriteSnapshotDeviceTable_frame (s : Sys) (n : String) :
    changesDmOnly s (rewriteSnapshotDeviceTable s n).2 := by
  unfold rewriteSnapshotDeviceTable
  split
  · exact changesDmOnly_refl s
  · split
    · split
      · exact changesDmOnly_refl s
      · split
        · exact changesDmOnly_refl s
        · exact dmLoadTableAndActivate_frame s n _
    · exact changesDmOnly_refl s

theorem switchSnapshotToMerge_frame (s : Sys) (n : String) :
    changesStoresAndRecords s (switchSnapshotToMerge s n).2 := by
  unfold switchSnapshotToMerge
  split
  · exact changesStoresAndRecords_refl s
  · dsimp only
    split
    · exact sar_of_dmOnly (rewriteSnapshotDeviceTable_frame s _)
    · exact changesStoresAndRecords_trans
        (sar_of_dmOnly (rewriteSnapshotDeviceTable_frame s _))
        (writeSnapshotStatusSys_frame _ n _)

theorem switchList_frame (s : Sys) (ns : List String) :
    changesStoresAndRecords s (switchList s ns).2 := by
  induction ns generalizing s with
  | nil => exact changesStoresAndRecords_refl s
  | cons n rest ih =>
    exact changesStoresAndRecords_trans (switchSnapshotToMerge_frame s n) (ih _)

theorem runCleanupItem_frame (s : Sys) (it : CleanupItem) :
    changesDmOnly s (runCleanupItem s it) := by
  cases it with
  | unmapDevice n => exact dmDeleteDeviceIfExists_frame s n
  | unmapImage n => exact unmapImageIfExists_frame s n

theorem runCleanup_frame (s : Sys) (items : List CleanupItem) :
    changesDmOnly s (runCleanup s items) := by
  unfold runCleanup
  generalize items.reverse = l
  induction l generalizing s with
  | nil => exact changesDmOnly_refl s
  | cons a as ih =>
    simp only [List.foldl_cons]
    exact changesDmOnly_trans (runCleanupItem_frame s a) (ih _)

theorem createLogicalPartition_frame (s : Sys) (p : PartitionInfo) (d : String) :
    changesDmOnly s (createLogicalPartition s p d).2 :=
  dmCreateDevice_frame s d p.table

theorem mapCowPartition_frame (s : Sys) (cn ci : String) (st : SnapshotStatus)
    (items : List CleanupItem) :
    changesDmOnly s (mapCowPartition s cn ci st items).2.1 := by
  unfold mapCowPartition
  split
  · exact changesDmOnly_refl s
  · dsimp only
    split
    · exact changesDmOnly_refl s
    · split
      · exact dmCreateDevice_frame s cn _
      · exact dmCreateDevice_frame s cn _

theorem mapCowDevices_frame (s : Sys) (pn : String) (st : SnapshotStatus) :
    changesDmOnly s (mapCowDevices s pn st).2.1 := by
  unfold mapCowDevices
  split
  · exact changesDmOnly_refl s
  · dsimp only
    split
    · split
      · exact mapImageDevice_frame s _
      · split
        · exact mapImageDevice_frame s _
        · exact changesDmOnly_trans (mapImageDevice_frame s _) (mapCowPartition_frame _ _ _ st _)
    · exact mapCowPartition_frame s _ _ st _

set_option maxHeartbeats 1600000 in
theorem mapSnapshotCreate_frame (s : Sys) (n b c : String) (ss ls : Nat)
    (mode : SnapshotStorageMode) :
    changesDmOnly s (mapSnapshotCreate s n b c ss ls mode).2 := by
  unfold mapSnapshotCreate
  dsimp only
  repeat' split
  all_goals first
    | exact changesDmOnly_refl s
    | exact dmCreateDevice_frame s _ _
    | exact changesDmOnly_trans (dmCreateDevice_frame s _ _) (dmCreateDevice_frame _ _ _)
    | exact changesDmOnly_trans (dmCreateDevice_frame s _ _)
        (changesDmOnly_trans (dmCreateDevice_frame _ _ _) (dmDeleteDevice_frame _ _))

theorem mapSnapshot_frame (s : Sys) (n b c : String) :
    changesDmOnly s (mapSnapshot s n b c).2 := by
  unfold mapSnapshot
  dsimp only
  repeat' split
  all_goals first
    | exact changesDmOnly_refl s
    | exact mapSnapshotCreate_frame s _ _ _ _ _ _

set_option maxHeartbeats 1600000 in
theorem mapPartitionWithSnapshot_frame (s : Sys) (p : CreateLogicalPartitionParams) :
    changesDmOnly s (mapPartitionWithSnapshot s p).2 := by
  unfold mapPartitionWithSnapshot
  dsimp only
  repeat' split
  all_goals first
    | exact changesDmOnly_refl s
    | exact createLogicalPartition_frame s _ _
    | exact changesDmOnly_trans (createLogicalPartition_frame s _ _) (runCleanup_frame _ _)
    | exact changesDmOnly_trans (createLogicalPartition_frame s _ _)
        (changesDmOnly_trans (mapCowDevices_frame _ _ _) (runCleanup_frame _ _))
    | exact changesDmOnly_trans (createLogicalPartition_frame s _ _)
        (changesDmOnly_trans (mapCowDevices_frame _ _ _)
          (changesDmOnly_trans (mapSnapshot_frame _ _ _ _) (runCleanup_frame _ _)))
    | exact changesDmOnly_trans (createLogicalPartition_frame s _ _)
        (changesDmOnly_trans (mapCowDevices_frame _ _ _) (mapSnapshot_frame _ _ _ _))

set_option maxHeartbeats 1600000 in
theorem collapseSnapshotDevice_frame (s : Sys) (n : String) (st : SnapshotStatus) :
    changesDmOnly s (collapseSnapshotDevice s n st).2 := by
  unfold collapseSnapshotDevice
  dsimp only
  repeat' split
  all_goals first
    | exact changesDmOnly_refl s
    | exact dmLoadTableAndActivate_frame s _ _
    | exact changesDmOnly_trans (dmLoadTableAndActivate_frame s _ _)
        (dmDeleteDeviceIfExists_frame _ _)
    | exact changesDmOnly_trans (dmLoadTableAndActivate_frame s _ _)
        (changesDmOnly_trans (dmDeleteDeviceIfExists_frame _ _)
          (dmDeleteDeviceIfExists_frame _ _))

set_option maxHeartbeats 1600000 in
theorem onSnapshotMergeComplete_frame (s : Sys) (n : String) (st : SnapshotStatus) :
    changesStoresAndRecords s (onSnapshotMergeComplete s n st).2 := by
  unfold onSnapshotMergeComplete
  dsimp only
  repeat' split
  all_goals first
    | exact changesStoresAndRecords_refl s
    | exact sar_of_dmOnly (collapseSnapshotDevice_frame s n st)
    | exact changesStoresAndRecords_trans
        (sar_of_dmOnly (collapseSnapshotDevice_frame s n st)) (deleteSnapshot_frame _ n)
    | exact deleteSnapshot_frame s n

set_option maxHeartbeats 1600000 in
theorem checkTargetMergeState_frame (s : Sys) (n : String) :
    changesStoresAndRecords s (checkTargetMergeState s n).2 := by
  unfold checkTargetMergeState
  dsimp only
  repeat' split
  all_goals first
    | exact changesStoresAndRecords_refl s
    | exact deleteSnapshot_frame s n
    | exact onSnapshotMergeComplete_frame s n _
    | exact changesStoresAndRecords_trans (writeSnapshotStatusSys_frame s n _)
        (onSnapshotMergeComplete_frame _ n _)

theorem checkTargets_frame (s : Sys) (ns : List String) :
    changesStoresAndRecords s (checkTargets s ns).2 := by
  induction ns generalizing s with
  | nil => exact changesStoresAndRecords_refl s
  | cons n rest ih =>
    exact changesStoresAndRecords_trans (checkTargetMergeState_frame s n) (ih _)

/-! ### What each operation may leave in the state file -/

theorem updateStateString_ne_cancelled (st : UpdateState) :
    updateStateString st ≠ "cancelled" := by
  cases st <;> decide

theorem writeUpdateState_stateFile (s : Sys) (st : UpdateState) :
    (writeUpdateState s st).2.stateFile = s.stateFile ∨
    (writeUpdateState s st).2.stateFile = updateStateString st := by
  unfold writeUpdateState
  dsimp only
  split
  · exact Or.inl rfl
  · exact Or.inr rfl

theorem removeAllUpdateState_stateFile (s : Sys) :
    (removeAllUpdateState s).2.stateFile = s.stateFile ∨
    (removeAllUpdateState s).2.stateFile = "none" := by
  unfold removeAllUpdateState
  dsimp only
  split
  · exact Or.inl (removeSnapshotList_frame s _).2.1
  · exact Or.inr rfl

theorem handleCancelledUpdate_stateFile (s : Sys) :
    (handleCancelledUpdate s).2.stateFile = s.stateFile ∨
    (handleCancelledUpdate s).2.stateFile = "none" := by
  unfold handleCancelledUpdate
  split
  · exact Or.inl rfl
  · split
    · exact Or.inl rfl
    · exact removeAllUpdateState_stateFile s

theorem finishedSnapshotWrites_stateFile (s : Sys) :
    (finishedSnapshotWrites s).2.stateFile = s.stateFile ∨
    (finishedSnapshotWrites s).2.stateFile = "unverified" := by
  unfold finishedSnapshotWrites
  split
  · exact Or.inl rfl
  · exact Or.inr rfl
  · exact Or.inl rfl

theorem initiateMerge_stateFile (s : Sys) :
    (initiateMerge s).2.stateFile = s.stateFile ∨
    (initiateMerge s).2.stateFile = "merging" ∨
    (initiateMerge s).2.stateFile = "merge-failed" := by
  unfold initiateMerge
  dsimp only
  split
  · exact Or.inl rfl
  · split
    · exact Or.inl rfl
    · split
      · exact Or.inl rfl
      · split
        · exact Or.inl rfl
        · split
          · exact Or.inr (Or.inl rfl)
          · split
            · exact Or.inr (Or.inr rfl)
            · refine Or.inr (Or.inl ?_)
              have hsw := (switchList_frame
                (writeUpdateState s UpdateState.merging).2 (listSnapshots s)).2.1
              rw [hsw]
              rfl

theorem aggregateResults_stateFile (s : Sys) (results : List UpdateState) :
    (aggregateResults s results).2.stateFile = s.stateFile ∨
    (aggregateResults s results).2.stateFile = "merge-needs-reboot" := by
  unfold aggregateResults
  repeat' split
  all_goals first
    | exact Or.inl rfl
    | exact Or.inr rfl

theorem checkMergeStateLocked_stateFile (s : Sys) :
    (checkMergeStateLocked s).2.stateFile = s.stateFile ∨
    (checkMergeStateLocked s).2.stateFile = "merge-needs-reboot" ∨
    (checkMergeStateLocked s).2.stateFile = "none" := by
  have hpoll : (aggregateResults (checkTargets s (listSnapshots s)).2
      (checkTargets s (listSnapshots s)).1).2.stateFile = s.stateFile ∨
      (aggregateResults (checkTargets s (listSnapshots s)).2
        (checkTargets s (listSnapshots s)).1).2.stateFile = "merge-needs-reboot" ∨
      (aggregateResults (checkTargets s (listSnapshots s)).2
        (checkTargets s (listSnapshots s)).1).2.stateFile = "none" := by
    rcases aggregateResults_stateFile (checkTargets s (listSnapshots s)).2
        (checkTargets s (listSnapshots s)).1 with h | h
    · rw [h, (checkTargets_frame s (listSnapshots s)).2.1]
      exact Or.inl rfl
    · exact Or.inr (Or.inl h)
  unfold checkMergeStateLocked
  dsimp only
  split
  · exact Or.inl rfl
  · exact Or.inl rfl
  · exact hpoll
  · exact hpoll
  · exact hpoll
  · split
    · rcases handleCancelledUpdate_stateFile s with h | h
      · exact Or.inl h
      · exact Or.inr (Or.inr h)
    · rcases handleCancelledUpdate_stateFile s with h | h
      · exact Or.inl h
      · exact Or.inr (Or.inr h)
  · exact Or.inl rfl

theorem checkMergeStateTop_stateFile (s : Sys) :
    (checkMergeStateTop s).2.stateFile = s.stateFile ∨
    (checkMergeStateTop s).2.stateFile = "merge-needs-reboot" ∨
    (checkMergeStateTop s).2.stateFile = "none" := by
  unfold checkMergeStateTop
  dsimp only
  split
  · rcases removeAllUpdateState_stateFile (checkMergeStateLocked s).2 with h | h
    · rw [h]
      exact checkMergeStateLocked_stateFile s
    · exact Or.inr (Or.inr h)
  · split
    · rcases removeAllUpdateState_stateFile (checkMergeStateLocked s).2 with h | h
      · rw [h]
        exact checkMergeStateLocked_stateFile s
      · exact Or.inr (Or.inr h)
    · exact checkMergeStateLocked_stateFile s

/-- C6: the transient `Cancelled` state is never persisted — `WriteUpdateState`
invoked with `Cancelled` fails leaving the state file unchanged, and no
modelled operation can ever leave the string `cancelled` in the state file. -/
theorem C6_cancelled_never_persisted (s : Sys) :
    writeUpdateState s UpdateState.cancelled = (false, s) ∧
    (∀ o : Op, s.stateFile ≠ "cancelled" → (runOp s o).stateFile ≠ "cancelled") := by
  constructor
  · rfl
  · intro o hs
    cases o with
    | opFinishedSnapshotWrites =>
      show (finishedSnapshotWrites s).2.stateFile ≠ "cancelled"
      rcases finishedSnapshotWrites_stateFile s with h | h <;> rw [h]
      · exact hs
      · decide
    | opInitiateMerge =>
      show (initiateMerge s).2.stateFile ≠ "cancelled"
      rcases initiateMerge_stateFile s with h | h | h <;> rw [h]
      · exact hs
      · decide
      · decide
    | opCheckMergeState =>
      show (checkMergeStateTop s).2.stateFile ≠ "cancelled"
      rcases checkMergeStateTop_stateFile s with h | h | h <;> rw [h]
      · exact hs
      · decide
      · decide
    | opRemoveAllUpdateState =>
      show (removeAllUpdateState s).2.stateFile ≠ "cancelled"
      rcases removeAllUpdateState_stateFile s with h | h <;> rw [h]
      · exact hs
      · decide
    | opWriteUpdateState st =>
      show (writeUpdateState s st).2.stateFile ≠ "cancelled"
      rcases writeUpdateState_stateFile s st with h | h <;> rw [h]
      · exact hs
      · exact updateStateString_ne_cancelled st
    | opMapSnapshot n b c =>
      show (mapSnapshot s n b c).2.stateFile ≠ "cancelled"
      rw [(mapSnapshot_frame s n b c).1.1.2.1]
      exact hs
    | opMapPartitionWithSnapshot p =>
      show (mapPartitionWithSnapshot s p).2.stateFile ≠ "cancelled"
      rw [(mapPartitionWithSnapshot_frame s p).1.1.2.1]
      exact hs
    | opUnmapPartitionWithSnapshot n =>
      show (unmapPartitionWithSnapshot s n).2.stateFile ≠ "cancelled"
      rw [(unmapPartitionWithSnapshot_frame s n).1.1.2.1]
      exact hs
    | opDeleteSnapshot n =>
      show (deleteSnapshot s n).2.stateFile ≠ "cancelled"
      rw [(deleteSnapshot_frame s n).2.1]
      exact hs
    | opHandleCancelledUpdate =>
      show (handleCancelledUpdate s).2.stateFile ≠ "cancelled"
      rcases handleCancelledUpdate_stateFile s with h | h <;> rw [h]
      · exact hs
      · decide

/-! ### Cleanup removes every snapshot record (C3) -/

theorem mem_assocErase {α : Type} (r : List (String × α)) (key : String)
    (p : String × α) (h : p ∈ assocErase r key) : p ∈ r ∧ p.1 ≠ key := by
  induction r with
  | nil => simp [assocErase] at h
  | cons q rest ih =>
    obtain ⟨k, v⟩ := q
    by_cases hk : k = key
    · rw [show assocErase ((k, v) :: rest) key = assocErase rest key from by
        simp [assocErase, hk]] at h
      rcases ih h with ⟨h1, h2⟩
      exact ⟨List.mem_cons_of_mem _ h1, h2⟩
    · rw [show assocErase ((k, v) :: rest) key = (k, v) :: assocErase rest key from by
        simp [assocErase, hk]] at h
      rcases List.mem_cons.mp h with rfl | hm
      · exact ⟨List.mem_cons_self _ _, hk⟩
      · rcases ih hm with ⟨h1, h2⟩
        exact ⟨List.mem_cons_of_mem _ h1, h2⟩

theorem foldl_assocErase_all {α : Type} :
    ∀ (names : List String) (r : List (String × α)),
      (∀ p ∈ r, p.1 ∈ names) → names.foldl assocErase r = [] := by
  intro names
  induction names with
  | nil =>
    intro r h
    cases r with
    | nil => rfl
    | cons p rest => exact absurd (h p (List.mem_cons_self p rest)) (List.not_mem_nil _)
  | cons n ns ih =>
    intro r h
    rw [List.foldl_cons]
    refine ih (assocErase r n) ?_
    intro p hp
    rcases mem_assocErase r n p hp with ⟨h1, h2⟩
    rcases List.mem_cons.mp (h p h1) with he | hm
    · exact absurd he h2
    · exact hm

theorem deleteSnapshot_records (s : Sys) (n : String) :
    (deleteSnapshot s n).2.records = assocErase s.records n := by
  simp only [deleteSnapshot, unmapCowDevices_fst, Bool.not_true, Bool.false_eq_true,
    if_false]
  split
  · show assocErase
      (deleteBackingImage (unmapCowDevices s n).2 (getCowImageDeviceName n)).2.records n =
      assocErase s.records n
    rw [show (deleteBackingImage (unmapCowDevices s n).2
        (getCowImageDeviceName n)).2.records = (unmapCowDevices s n).2.records from rfl,
      (unmapCowDevices_frame s n).1.2]
  · show assocErase (unmapCowDevices s n).2.records n = assocErase s.records n
    rw [(unmapCowDevices_frame s n).1.2]

theorem removeSnapshotList_fst (s : Sys) (ns : List String) :
    (removeSnapshotList s ns).1 = true := by
  induction ns generalizing s with
  | nil => rfl
  | cons n rest ih =>
    simp only [removeSnapshotList, unmapPartitionWithSnapshot_fst, if_true]
    simp [deleteSnapshot_fst, ih]

theorem removeSnapshotList_records (s : Sys) (ns : List String) :
    (removeSnapshotList s ns).2.records = ns.foldl assocErase s.records := by
  induction ns generalizing s with
  | nil => rfl
  | cons n rest ih =>
    simp only [removeSnapshotList, unmapPartitionWithSnapshot_fst, if_true,
      List.foldl_cons]
    rw [ih, deleteSnapshot_records, (unmapPartitionWithSnapshot_frame s n).1.2]

theorem writeUpdateState_none_eq (s : Sys) :
    writeUpdateState s UpdateState.none = (true, { s with stateFile := "none" }) := rfl

theorem removeAllUpdateState_post (s : Sys) :
    (removeAllUpdateState s).1 = true ∧
    (removeAllUpdateState s).2.records = [] ∧
    (removeAllUpdateState s).2.bootIndicator = Option.none ∧
    (removeAllUpdateState s).2.stateFile = "none" := by
  have hrec : (removeSnapshotList s (listSnapshots s)).2.records = [] := by
    rw [removeSnapshotList_records]
    exact foldl_assocErase_all (listSnapshots s) s.records
      (fun p hp => List.mem_map_of_mem Prod.fst hp)
  unfold removeAllUpdateState removeAllSnapshots
  simp only [removeSnapshotList_fst, Bool.not_true, Bool.false_eq_true, if_false]
  rw [writeUpdateState_none_eq]
  exact ⟨rfl, hrec, rfl, rfl⟩

theorem handleCancelledUpdate_rollback (s : Sys) (old : String)
    (hboot : s.bootIndicator = some old) (heq : s.slotSuffix = old) :
    handleCancelledUpdate s = (true, (removeAllUpdateState s).2) := by
  unfold handleCancelledUpdate
  rw [hboot]
  dsimp only
  rw [if_neg (by simp [heq])]

theorem handleCancelledUpdate_nonrollback (s : Sys) (old : String)
    (hboot : s.bootIndicator = some old) (hne : s.slotSuffix ≠ old) :
    handleCancelledUpdate s = (false, s) := by
  unfold handleCancelledUpdate
  rw [hboot]
  dsimp only
  rw [if_pos hne]

/-- C3: when the state is `Unverified` and the live slot equals the slot
stored in the boot indicator (a rollback), `CheckMergeState` reports the
transient `Cancelled` state and the coordinator removes all update state:
every snapshot record is deleted, the boot indicator is removed and the
persisted state ends as `none`; when the live slot differs, `Unverified`
is reported and nothing changes. -/
theorem C3_rollback_detection (s : Sys) (old : String)
    (hst : readUpdateStateSys s = UpdateState.unverified)
    (hboot : s.bootIndicator = some old) :
    (s.slotSuffix = old →
      (checkMergeStateTop s).1 = UpdateState.cancelled ∧
      (checkMergeStateTop s).2.records = [] ∧
      (checkMergeStateTop s).2.bootIndicator = Option.none ∧
      (checkMergeStateTop s).2.stateFile = "none") ∧
    (s.slotSuffix ≠ old → checkMergeStateTop s = (UpdateState.unverified, s)) := by
  constructor
  · intro heq
    have hloc : checkMergeStateLocked s =
        (UpdateState.cancelled, (removeAllUpdateState s).2) := by
      unfold checkMergeStateLocked
      rw [hst]
      dsimp only
      rw [handleCancelledUpdate_rollback s old hboot heq]
      rfl
    unfold checkMergeStateTop
    rw [hloc]
    dsimp only
    rw [if_neg (by decide), if_pos rfl]
    exact ⟨rfl,
      (removeAllUpdateState_post (removeAllUpdateState s).2).2.1,
      (removeAllUpdateState_post (removeAllUpdateState s).2).2.2.1,
      (removeAllUpdateState_post (removeAllUpdateState s).2).2.2.2⟩
  · intro hne
    have hloc : checkMergeStateLocked s = (UpdateState.unverified, s) := by
      unfold checkMergeStateLocked
      rw [hst]
      dsimp only
      rw [handleCancelledUpdate_nonrollback s old hboot hne]
      rfl
    unfold checkMergeStateTop
    rw [hloc]
    dsimp only
    rw [if_neg (by decide), if_neg (by decide)]

theorem C3_rollback_detection_witness :
    (checkMergeStateTop (⟨"_b", "unverified", some "_b",
        [("sys", "created 1024 1024 0 512 0 0")], [], ["sys-cow-img"], [], []⟩ : Sys)).1 =
      UpdateState.cancelled ∧
    (checkMergeStateTop (⟨"_b", "unverified", some "_b",
        [("sys", "created 1024 1024 0 512 0 0")], [], ["sys-cow-img"], [], []⟩ : Sys)).2.records =
      [] ∧
    (checkMergeStateTop (⟨"_b", "unverified", some "_b",
        [("sys", "created 1024 1024 0 512 0 0")], [], ["sys-cow-img"], [], []⟩ : Sys)).2.bootIndicator =
      Option.none ∧
    (checkMergeStateTop (⟨"_b", "unverified", some "_b",
        [("sys", "created 1024 1024 0 512 0 0")], [], ["sys-cow-img"], [], []⟩ : Sys)).2.stateFile =
      "none" :=
  (C3_rollback_detection _ "_b" (by decide) (by decide)).1 (by decide)

/-! ### Aggregation of the per-snapshot poll (C2) -/

theorem checkTargetMergeState_range (s : Sys) (n : String) :
    (checkTargetMergeState s n).1 = UpdateState.merging ∨
    (checkTargetMergeState s n).1 = UpdateState.mergeFailed ∨
    (checkTargetMergeState s n).1 = UpdateState.mergeNeedsReboot ∨
    (checkTargetMergeState s n).1 = UpdateState.mergeCompleted ∨
    (checkTargetMergeState s n).1 = UpdateState.cancelled := by
  unfold checkTargetMergeState
  dsimp only
  repeat' split
  all_goals simp

theorem checkTargets_range (s : Sys) (ns : List String) :
    ∀ x ∈ (checkTargets s ns).1,
      x = UpdateState.merging ∨ x = UpdateState.mergeFailed ∨
      x = UpdateState.mergeNeedsReboot ∨ x = UpdateState.mergeCompleted ∨
      x = UpdateState.cancelled := by
  induction ns generalizing s with
  | nil => intro x hx; simp [checkTargets] at hx
  | cons n rest ih =>
    intro x hx
    rw [show (checkTargets s (n :: rest)).1 =
        (checkTargetMergeState s n).1 ::
          (checkTargets (checkTargetMergeState s n).2 rest).1 from rfl] at hx
    rcases List.mem_cons.mp hx with rfl | hm
    · exact checkTargetMergeState_range s n
    · exact ih _ x hm

theorem resultSetsFailed_false_of_range (x : UpdateState)
    (hr : x = UpdateState.merging ∨ x = UpdateState.mergeFailed ∨
      x = UpdateState.mergeNeedsReboot ∨ x = UpdateState.mergeCompleted ∨
      x = UpdateState.cancelled)
    (hne : x ≠ UpdateState.mergeFailed) : resultSetsFailed x = false := by
  rcases hr with rfl | rfl | rfl | rfl | rfl
  · decide
  · exact absurd rfl hne
  · decide
  · decide
  · decide

/-- C2: the poll of `CheckMergeState` aggregates the per-snapshot results
with priority `merging` over `merge-failed` over `merge-needs-reboot` over
`cancelled` over `merge-completed`, and persists `merge-needs-reboot` when
that is the outcome. -/
theorem C2_checkMergeState_aggregation (s : Sys)
    (hst : readUpdateStateSys s = UpdateState.merging ∨
           readUpdateStateSys s = UpdateState.mergeNeedsReboot ∨
           readUpdateStateSys s = UpdateState.mergeFailed) :
    (UpdateState.merging ∈ (checkTargets s (listSnapshots s)).1 →
      checkMergeStateLocked s =
        (UpdateState.merging, (checkTargets s (listSnapshots s)).2)) ∧
    (UpdateState.merging ∉ (checkTargets s (listSnapshots s)).1 →
      UpdateState.mergeFailed ∈ (checkTargets s (listSnapshots s)).1 →
      checkMergeStateLocked s =
        (UpdateState.mergeFailed, (checkTargets s (listSnapshots s)).2)) ∧
    (UpdateState.merging ∉ (checkTargets s (listSnapshots s)).1 →
      UpdateState.mergeFailed ∉ (checkTargets s (listSnapshots s)).1 →
      UpdateState.mergeNeedsReboot ∈ (checkTargets s (listSnapshots s)).1 →
      checkMergeStateLocked s =
        (UpdateState.mergeNeedsReboot,
         (writeUpdateState (checkTargets s (listSnapshots s)).2
           UpdateState.mergeNeedsReboot).2) ∧
      (checkMergeStateLocked s).2.stateFile = "merge-needs-reboot") ∧
    (UpdateState.merging ∉ (checkTargets s (listSnapshots s)).1 →
      UpdateState.mergeFailed ∉ (checkTargets s (listSnapshots s)).1 →
      UpdateState.mergeNeedsReboot ∉ (checkTargets s (listSnapshots s)).1 →
      UpdateState.cancelled ∈ (checkTargets s (listSnapshots s)).1 →
      checkMergeStateLocked s =
        (UpdateState.cancelled, (checkTargets s (listSnapshots s)).2)) ∧
    ((∀ x ∈ (checkTargets s (listSnapshots s)).1, x = UpdateState.mergeCompleted) →
      checkMergeStateLocked s =
        (UpdateState.mergeCompleted, (checkTargets s (listSnapshots s)).2)) := by
  have hlock : checkMergeStateLocked s =
      aggregateResults (checkTargets s (listSnapshots s)).2
        (checkTargets s (listSnapshots s)).1 := by
    unfold checkMergeStateLocked
    rcases hst with h | h | h <;> rw [h]
  have hrange := checkTargets_range s (listSnapshots s)
  refine ⟨?_, ?_, ?_, ?_, ?_⟩
  · intro hm
    have ha : ((checkTargets s (listSnapshots s)).1.any
        (fun r => decide (r = UpdateState.merging))) = true :=
      List.any_eq_true.mpr ⟨_, hm, by simp⟩
    rw [hlock]
    unfold aggregateResults
    simp only [ha, if_true]
  · intro hnm hf
    have ha : ((checkTargets s (listSnapshots s)).1.any
        (fun r => decide (r = UpdateState.merging))) = false := by
      rw [List.any_eq_false]
      intro x hx
      simp only [decide_eq_true_eq]
      exact fun hxx => hnm (hxx ▸ hx)
    have hb : ((checkTargets s (listSnapshots s)).1.any resultSetsFailed) = true :=
      List.any_eq_true.mpr ⟨_, hf, by decide⟩
    rw [hlock]
    unfold aggregateResults
    simp only [ha, hb, Bool.false_eq_true, if_false, if_true]
  · intro hnm hnf hr
    have ha : ((checkTargets s (listSnapshots s)).1.any
        (fun r => decide (r = UpdateState.merging))) = false := by
      rw [List.any_eq_false]
      intro x hx
      simp only [decide_eq_true_eq]
      exact fun hxx => hnm (hxx ▸ hx)
    have hb : ((checkTargets s (listSnapshots s)).1.any resultSetsFailed) = false := by
      rw [List.any_eq_false]
      intro x hx
      rw [resultSetsFailed_false_of_range x (hrange x hx) (fun hxx => hnf (hxx ▸ hx))]
      simp
    have hc : ((checkTargets s (listSnapshots s)).1.any
        (fun r => decide (r = UpdateState.mergeNeedsReboot))) = true :=
      List.any_eq_true.mpr ⟨_, hr, by simp⟩
    constructor
    · rw [hlock]
      unfold aggregateResults
      simp only [ha, hb, hc, Bool.false_eq_true, if_false, if_true]
    · rw [hlock]
      unfold aggregateResults
      simp only [ha, hb, hc, Bool.false_eq_true, if_false, if_true]
      rfl
  · intro hnm hnf hnr hc
    have ha : ((checkTargets s (listSnapshots s)).1.any
        (fun r => decide (r = UpdateState.merging))) = false := by
      rw [List.any_eq_false]
      intro x hx
      simp only [decide_eq_true_eq]
      exact fun hxx => hnm (hxx ▸ hx)
    have hb : ((checkTargets s (listSnapshots s)).1.any resultSetsFailed) = false := by
      rw [List.any_eq_false]
      intro x hx
      rw [resultSetsFailed_false_of_range x (hrange x hx) (fun hxx => hnf (hxx ▸ hx))]
      simp
    have hcc : ((checkTargets s (listSnapshots s)).1.any
        (fun r => decide (r = UpdateState.mergeNeedsReboot))) = false := by
      rw [List.any_eq_false]
      intro x hx
      simp only [decide_eq_true_eq]
      exact fun hxx => hnr (hxx ▸ hx)
    have hd : ((checkTargets s (listSnapshots s)).1.any
        (fun r => decide (r = UpdateState.cancelled))) = true :=
      List.any_eq_true.mpr ⟨_, hc, by simp⟩
    rw [hlock]
    unfold aggregateResults
    simp only [ha, hb, hcc, hd, Bool.false_eq_true, if_false, if_true]
  · intro hall
    have ha : ((checkTargets s (listSnapshots s)).1.any
        (fun r => decide (r = UpdateState.merging))) = false := by
      rw [List.any_eq_false]
      intro x hx
      rw [hall x hx]
      decide
    have hb : ((checkTargets s (listSnapshots s)).1.any resultSetsFailed) = false := by
      rw [List.any_eq_false]
      intro x hx
      rw [hall x hx]
      decide
    have hcc : ((checkTargets s (listSnapshots s)).1.any
        (fun r => decide (r = UpdateState.mergeNeedsReboot))) = false := by
      rw [List.any_eq_false]
      intro x hx
      rw [hall x hx]
      decide
    have hd : ((checkTargets s (listSnapshots s)).1.any
        (fun r => decide (r = UpdateState.cancelled))) = false := by
      rw [List.any_eq_false]
      intro x hx
      rw [hall x hx]
      decide
    rw [hlock]
    unfold aggregateResults
    simp only [ha, hb, hcc, hd, Bool.false_eq_true, if_false]

theorem C2_checkMergeState_aggregation_witness :
    UpdateState.merging ∈
      (checkTargets exampleMergingSys (listSnapshots exampleMergingSys)).1 ∧
    checkMergeStateLocked exampleMergingSys =
      (UpdateState.merging,
       (checkTargets exampleMergingSys (listSnapshots exampleMergingSys)).2) :=
  ⟨by decide,
   (C2_checkMergeState_aggregation exampleMergingSys (Or.inl (by decide))).1 (by decide)⟩

/-! ### The snapshot-target mode follows the global state (C5) -/

theorem extraDeviceName_ne (name : String) : getSnapshotExtraDeviceName name ≠ name := by
  intro h
  have hlen := congrArg String.length h
  unfold getSnapshotExtraDeviceName at hlen
  rw [String.length_append] at hlen
  have h6 : String.length "-inner" = 6 := rfl
  rw [h6] at hlen
  omega

theorem mapSnapshotCreate_spec (s : Sys) (n b c : String) (ss ls : Nat)
    (mode : SnapshotStorageMode)
    (hfree1 : assocGet s.dm
      (if 0 < ls then getSnapshotExtraDeviceName n else n) = Option.none)
    (hfree2 : assocGet s.dm n = Option.none) :
    (mapSnapshotCreate s n b c ss ls mode).1 = true ∧
    assocGet (mapSnapshotCreate s n b c ss ls mode).2.dm
      (if 0 < ls then getSnapshotExtraDeviceName n else n) =
      some ⟨false, [mkSnapshotTarget 0 ss b c mode]⟩ := by
  by_cases hlin : 0 < ls
  · rw [if_pos hlin] at hfree1 ⊢
    have hne := extraDeviceName_ne n
    have hls : ls ≠ 0 := by omega
    simp only [mapSnapshotCreate, if_pos hlin, dmCreateDevice, dmGetDeviceString,
      hfree1, hfree2, assocGet_set_self, assocGet_set_other _ _ _ _ hne,
      Bool.not_true, Bool.false_eq_true, if_false, ite_false]
    rw [if_pos hls]
    simp [assocGet_set_other _ _ _ _ (Ne.symm hne), assocGet_set_self]
  · rw [if_neg hlin] at hfree1 ⊢
    have hls : ls = 0 := by omega
    simp [mapSnapshotCreate, if_neg hlin, dmCreateDevice, hfree1, hls,
      assocGet_set_self]

/-- C5: `MapSnapshot` chooses the snapshot-target mode from the global
update state — `Merging` or `MergeFailed` produce a merge-mode
(`snapshot-merge`) target, `MergeCompleted` or `MergeNeedsReboot` make it
refuse to map, and every other state produces a persistent (`snapshot`)
target. -/
theorem C5_mapSnapshot_mode (s : Sys) (name baseDevice cowDevice : String)
    (st : SnapshotStatus)
    (hread : readSnapshotStatusSys s name = some st)
    (hnc : st.state ≠ SnapshotState.mergeCompleted)
    (hpath : startsWithSlash baseDevice = false)
    (hdev : st.device_size % 512 = 0)
    (hsnap : st.snapshot_size % 512 = 0)
    (hle : st.snapshot_size ≤ st.device_size)
    (hfree1 : assocGet s.dm (if 0 < (st.device_size - st.snapshot_size) / 512
        then getSnapshotExtraDeviceName name else name) = Option.none)
    (hfree2 : assocGet s.dm name = Option.none) :
    ((readUpdateStateSys s = UpdateState.merging ∨
      readUpdateStateSys s = UpdateState.mergeFailed) →
      (mapSnapshot s name baseDevice cowDevice).1 = true ∧
      assocGet (mapSnapshot s name baseDevice cowDevice).2.dm
        (if 0 < (st.device_size - st.snapshot_size) / 512
          then getSnapshotExtraDeviceName name else name) =
        some ⟨false, [mkSnapshotTarget 0 (st.snapshot_size / 512) baseDevice cowDevice
          SnapshotStorageMode.merge]⟩) ∧
    ((readUpdateStateSys s = UpdateState.mergeCompleted ∨
      readUpdateStateSys s = UpdateState.mergeNeedsReboot) →
      mapSnapshot s name baseDevice cowDevice = (false, s)) ∧
    (readUpdateStateSys s ≠ UpdateState.merging →
      readUpdateStateSys s ≠ UpdateState.mergeFailed →
      readUpdateStateSys s ≠ UpdateState.mergeCompleted →
      readUpdateStateSys s ≠ UpdateState.mergeNeedsReboot →
      (mapSnapshot s name baseDevice cowDevice).1 = true ∧
      assocGet (mapSnapshot s name baseDevice cowDevice).2.dm
        (if 0 < (st.device_size - st.snapshot_size) / 512
          then getSnapshotExtraDeviceName name else name) =
        some ⟨false, [mkSnapshotTarget 0 (st.snapshot_size / 512) baseDevice cowDevice
          SnapshotStorageMode.persistent]⟩) := by
  have hlt : ¬ st.device_size < st.snapshot_size := by omega
  have hcommon : mapSnapshot s name baseDevice cowDevice =
      match readUpdateStateSys s with
      | UpdateState.mergeCompleted => (false, s)
      | UpdateState.mergeNeedsReboot => (false, s)
      | gs =>
        mapSnapshotCreate s name baseDevice cowDevice (st.snapshot_size / 512)
          ((st.device_size - st.snapshot_size) / 512)
          (if gs = UpdateState.merging ∨ gs = UpdateState.mergeFailed
           then SnapshotStorageMode.merge else SnapshotStorageMode.persistent) := by
    unfold mapSnapshot
    rw [hread]
    dsimp only
    rw [if_neg (by simp [hnc]), hpath]
    simp only [Bool.not_true, Bool.false_eq_true, if_false, ite_false, hdev, hsnap]
    rw [if_neg (by simp), if_neg (by simp [hlt])]
  refine ⟨?_, ?_, ?_⟩
  · intro hgs
    rcases hgs with h | h <;>
    · rw [hcommon, h]
      exact mapSnapshotCreate_spec s name baseDevice cowDevice _ _ _ hfree1 hfree2
  · intro hgs
    rcases hgs with h | h <;> rw [hcommon, h]
  · intro h1 h2 h3 h4
    have hres : mapSnapshot s name baseDevice cowDevice =
        mapSnapshotCreate s name baseDevice cowDevice (st.snapshot_size / 512)
          ((st.device_size - st.snapshot_size) / 512) SnapshotStorageMode.persistent := by
      rw [hcommon]
      rcases hv : readUpdateStateSys s <;> simp_all
    rw [hres]
    exact mapSnapshotCreate_spec s name baseDevice cowDevice _ _ _ hfree1 hfree2

theorem C5_mapSnapshot_mode_witness :
    readUpdateStateSys (⟨"_b", "merging", some "_a",
      [("sys", "created 1024 1024 0 512 0 0")], [], [], [], []⟩ : Sys) =
      UpdateState.merging ∧
    (mapSnapshot (⟨"_b", "merging", some "_a",
      [("sys", "created 1024 1024 0 512 0 0")], [], [], [], []⟩ : Sys)
      "sys" "dm:sys-base" "dm:sys-cow-img").1 = true ∧
    assocGet (mapSnapshot (⟨"_b", "merging", some "_a",
      [("sys", "created 1024 1024 0 512 0 0")], [], [], [], []⟩ : Sys)
      "sys" "dm:sys-base" "dm:sys-cow-img").2.dm "sys" =
      some ⟨false, [mkSnapshotTarget 0 2 "dm:sys-base" "dm:sys-cow-img"
        SnapshotStorageMode.merge]⟩ := by
  refine ⟨by decide, ?_⟩
  have h := ((C5_mapSnapshot_mode (⟨"_b", "merging", some "_a",
      [("sys", "created 1024 1024 0 512 0 0")], [], [], [], []⟩ : Sys)
      "sys" "dm:sys-base" "dm:sys-cow-img"
      ⟨SnapshotState.created, 1024, 1024, 0, 512, 0, 0⟩
      (by decide) (by decide) (by decide) (by decide) (by decide) (by decide)
      (by decide) (by decide)).1 (Or.inl (by decide)))
  exact ⟨h.1, h.2⟩

/-! ### The plain-linear path of `MapPartitionWithSnapshot` (C10) -/

/-- C10: when the partition has lost the `UPDATED` attribute, or no
snapshot record exists, or the record is merge-completed,
`MapPartitionWithSnapshot` succeeds after creating the partition's
plain-linear table under its own device name, touching nothing else: no
cow or snapshot devices are created. -/
theorem C10_mapPartitionWithSnapshot_plain (s : Sys)
    (params : CreateLogicalPartitionParams) (partition : PartitionInfo)
    (hfind : findPartition s params.getPartitionName = some partition)
    (hn : partition.numExtents ≠ 0)
    (hname : params.getPartitionName = params.getDeviceName)
    (hfresh : assocGet s.dm params.getDeviceName = Option.none)
    (hplain : partition.updated = false ∨
      assocGet s.records params.getPartitionName = Option.none ∨
      ∃ contents st,
        assocGet s.records params.getPartitionName = some contents ∧
        readSnapshotStatusContents contents = some st ∧
        st.state = SnapshotState.mergeCompleted) :
    mapPartitionWithSnapshot s params =
      (true, { s with
        dm := assocSet s.dm params.getDeviceName ⟨false, partition.table⟩ }) := by
  rw [hname] at hfind
  unfold mapPartitionWithSnapshot createLogicalPartition dmCreateDevice
  rw [if_neg (by simp [hname])]
  rw [hname, hfind]
  dsimp only
  rw [if_neg hn]
  rcases hplain with h | h | ⟨contents, st, hc, hr, hst⟩
  · simp [h, hfresh]
  · rw [hname] at h
    cases hu : partition.updated <;> simp [h, hu, hfresh]
  · rw [hname] at hc
    cases hu : partition.updated <;> simp [hc, hr, hst, hu, hfresh]

theorem C10_mapPartitionWithSnapshot_plain_witness :
    mapPartitionWithSnapshot
      (⟨"_b", "none", Option.none, [], [], [],
        [⟨"sys", false, 1, [mkLinearTarget 0 2 "dm:super" 0]⟩], []⟩ : Sys)
      ⟨"sys", Option.none, false⟩ =
      (true, { (⟨"_b", "none", Option.none, [], [], [],
        [⟨"sys", false, 1, [mkLinearTarget 0 2 "dm:super" 0]⟩], []⟩ : Sys) with
        dm := assocSet [] "sys" ⟨false, [mkLinearTarget 0 2 "dm:super" 0]⟩ }) := by
  exact C10_mapPartitionWithSnapshot_plain
    (⟨"_b", "none", Option.none, [], [], [],
      [⟨"sys", false, 1, [mkLinearTarget 0 2 "dm:super" 0]⟩], []⟩ : Sys)
    ⟨"sys", Option.none, false⟩
    ⟨"sys", false, 1, [mkLinearTarget 0 2 "dm:super" 0]⟩
    (by decide) (by decide) (by decide) (by decide) (Or.inl (by decide))

theorem C6_cancelled_never_persisted_witness :
    (⟨"_b", "merging", Option.none, [], [], [], [], []⟩ : Sys).stateFile ≠ "cancelled" ∧
    (runOp (⟨"_b", "merging", Option.none, [], [], [], [], []⟩ : Sys)
      (Op.opWriteUpdateState UpdateState.cancelled)).stateFile ≠ "cancelled" :=
  ⟨by decide,
   (C6_cancelled_never_persisted ⟨"_b", "merging", Option.none, [], [], [], [], []⟩).2
     (Op.opWriteUpdateState UpdateState.cancelled) (by decide)⟩

/-! ### `InitiateMerge` and the table-rewrite loop (C1) -/

theorem dmLoadTableAndActivate_records (s : Sys) (n : String) (t : List DmTarget) :
    (dmLoadTableAndActivate s n t).2.records = s.records := by
  unfold dmLoadTableAndActivate
  cases assocGet s.dm n <;> rfl

theorem rewriteSnapshotDeviceTable_records (s : Sys) (d : String) :
    (rewriteSnapshotDeviceTable s d).2.records = s.records := by
  unfold rewriteSnapshotDeviceTable
  repeat' split
  all_goals first
    | rfl
    | exact dmLoadTableAndActivate_records _ _ _

theorem switchSnapshotToMerge_records_other (s : Sys) (m n : String) (h : n ≠ m) :
    assocGet (switchSnapshotToMerge s m).2.records n = assocGet s.records n := by
  unfold switchSnapshotToMerge
  cases hrd : readSnapshotStatusSys s m
  · rfl
  · dsimp only
    split
    · exact congrArg (fun l => assocGet l n) (rewriteSnapshotDeviceTable_records s _)
    · show assocGet (writeSnapshotStatusSys _ m _).records n = _
      unfold writeSnapshotStatusSys
      dsimp only
      rw [assocGet_set_other _ _ _ _ (Ne.symm h)]
      exact congrArg (fun l => assocGet l n) (rewriteSnapshotDeviceTable_records s _)

theorem switchSnapshotToMerge_read_other (s : Sys) (m n : String) (h : n ≠ m) :
    readSnapshotStatusSys (switchSnapshotToMerge s m).2 n = readSnapshotStatusSys s n := by
  unfold readSnapshotStatusSys
  rw [switchSnapshotToMerge_records_other s m n h]

theorem rewriteSnapshotDeviceTable_preserves (s : Sys) (dn d : String)
    (h : hasMergeTarget s d = true) :
    hasMergeTarget (rewriteSnapshotDeviceTable s dn).2 d = true := by
  unfold rewriteSnapshotDeviceTable dmLoadTableAndActivate
  repeat' split
  all_goals first
    | exact h
    | (by_cases hd : dn = d
       · subst hd
         simp [hasMergeTarget, dmGetTableInfo, assocGet_set_self, mkSnapshotTarget]
       · simp only [hasMergeTarget, dmGetTableInfo] at h ⊢
         rw [assocGet_set_other _ _ _ _ hd]
         exact h)

theorem rewriteSnapshotDeviceTable_success (s : Sys) (d : String) :
    (rewriteSnapshotDeviceTable s d).1 = true →
    hasMergeTarget (rewriteSnapshotDeviceTable s d).2 d = true := by
  unfold rewriteSnapshotDeviceTable dmLoadTableAndActivate
  repeat' split
  all_goals intro h
  all_goals first
    | (simp at h
       done)
    | simp [hasMergeTarget, dmGetTableInfo, assocGet_set_self, mkSnapshotTarget]

theorem switchSnapshotToMerge_preserves (s : Sys) (m d : String)
    (h : hasMergeTarget s d = true) :
    hasMergeTarget (switchSnapshotToMerge s m).2 d = true := by
  unfold switchSnapshotToMerge
  cases hrd : readSnapshotStatusSys s m
  · exact h
  · dsimp only
    split
    · exact rewriteSnapshotDeviceTable_preserves s _ d h
    · exact rewriteSnapshotDeviceTable_preserves s _ d h

theorem switchSnapshotToMerge_success_mergeTarget (s : Sys) (m : String)
    (st : SnapshotStatus) (hrd : readSnapshotStatusSys s m = some st)
    (hsc : (switchSnapshotToMerge s m).1 = true) :
    hasMergeTarget (switchSnapshotToMerge s m).2 (getSnapshotDeviceName m st) = true := by
  unfold switchSnapshotToMerge at hsc ⊢
  rw [hrd] at hsc ⊢
  dsimp only at hsc ⊢
  cases hr : (rewriteSnapshotDeviceTable s (getSnapshotDeviceName m st)).1
  · simp [hr] at hsc
  · simp only [hr, Bool.not_true, Bool.false_eq_true, Bool.true_eq_false, if_false]
    exact rewriteSnapshotDeviceTable_success s _ hr

theorem switchList_preserves (s : Sys) (ns : List String) (d : String)
    (h : hasMergeTarget s d = true) :
    hasMergeTarget (switchList s ns).2 d = true := by
  induction ns generalizing s with
  | nil => exact h
  | cons m ms ih => exact ih _ (switchSnapshotToMerge_preserves s m d h)

theorem switchList_success_mergeTargets (ns : List String) (s : Sys)
    (hnd : ns.Nodup) (hsc : (switchList s ns).1 = true) :
    ∀ n ∈ ns, ∀ st, readSnapshotStatusSys s n = some st →
      hasMergeTarget (switchList s ns).2 (getSnapshotDeviceName n st) = true := by
  induction ns generalizing s with
  | nil =>
    intro n hn
    exact absurd hn (List.not_mem_nil n)
  | cons m ms ih =>
    intro n hn st hrd
    have hand : ((switchSnapshotToMerge s m).1 &&
        (switchList (switchSnapshotToMerge s m).2 ms).1) = true := hsc
    have hsc1 := (Bool.and_eq_true _ _).mp hand
    rcases List.mem_cons.mp hn with h | h
    · subst h
      exact switchList_preserves _ ms _
        (switchSnapshotToMerge_success_mergeTarget s n st hrd hsc1.1)
    · have hnm : n ≠ m := by
        intro he
        subst he
        exact (List.nodup_cons.mp hnd).1 h
      have hrd' : readSnapshotStatusSys (switchSnapshotToMerge s m).2 n = some st := by
        rw [switchSnapshotToMerge_read_other s m n hnm]
        exact hrd
      exact ih _ (List.nodup_cons.mp hnd).2 hsc1.2 n h st hrd'

/-- C1: counterexample to the claim as written.  The claim reads the
device check as "every snapshot is mapped (state `active`)", but the
source only rejects `DmDeviceState::INVALID`: a mapped-but-suspended
snapshot device is not `active`, yet `InitiateMerge` proceeds, returns
success and persists a new global state instead of failing unchanged. -/
theorem C1_initiateMerge_counterexample :
    dmGetState exampleSuspendedSys "sys" ≠ DmDeviceState.active ∧
    (initiateMerge exampleSuspendedSys).1 = true ∧
    (initiateMerge exampleSuspendedSys).2.stateFile ≠ exampleSuspendedSys.stateFile := by
  decide

/-- C1 (amended): `InitiateMerge` requires the global state `unverified`,
a readable boot indicator naming a slot different from the live one, and
every snapshot's device mapped — its device-mapper state not `invalid`
(`active` or `suspended`; the source checks only against `INVALID`).  If
any precondition fails it returns failure with the whole state, the
persisted global state included, unchanged.  Otherwise it persists
`merging` and rewrites every snapshot device's table to merge mode:
if every rewrite succeeds the persisted state stays `merging` and every
snapshot's device carries a single `snapshot-merge` target; if any
rewrite fails the persisted state becomes `merge-failed`; either way it
returns success. -/
theorem C1_initiateMerge_amended (s : Sys) :
    (readUpdateStateSys s ≠ UpdateState.unverified → initiateMerge s = (false, s)) ∧
    (s.bootIndicator = Option.none → initiateMerge s = (false, s)) ∧
    (∀ oldSlot, s.bootIndicator = some oldSlot → s.slotSuffix = oldSlot →
      initiateMerge s = (false, s)) ∧
    ((∃ n ∈ listSnapshots s, dmGetState s n = DmDeviceState.invalid) →
      initiateMerge s = (false, s)) ∧
    (∀ oldSlot, readUpdateStateSys s = UpdateState.unverified →
      s.bootIndicator = some oldSlot → s.slotSuffix ≠ oldSlot →
      (∀ n ∈ listSnapshots s, dmGetState s n ≠ DmDeviceState.invalid) →
      (initiateMerge s).1 = true ∧
      ((switchList (writeUpdateState s UpdateState.merging).2 (listSnapshots s)).1 = true →
        (initiateMerge s).2.stateFile = "merging" ∧
        ((listSnapshots s).Nodup →
          ∀ n ∈ listSnapshots s, ∀ st, readSnapshotStatusSys s n = some st →
            hasMergeTarget (initiateMerge s).2 (getSnapshotDeviceName n st) = true)) ∧
      ((switchList (writeUpdateState s UpdateState.merging).2 (listSnapshots s)).1 = false →
        (initiateMerge s).2.stateFile = "merge-failed")) := by
  refine ⟨?_, ?_, ?_, ?_, ?_⟩
  · intro h
    unfold initiateMerge
    rw [if_pos h]
  · intro h
    unfold initiateMerge
    by_cases h1 : readUpdateStateSys s ≠ UpdateState.unverified
    · rw [if_pos h1]
    · rw [if_neg h1, h]
  · intro oldSlot hb heq
    unfold initiateMerge
    by_cases h1 : readUpdateStateSys s ≠ UpdateState.unverified
    · rw [if_pos h1]
    · rw [if_neg h1, hb]
      dsimp only
      rw [if_pos heq]
  · rintro ⟨n, hmem, hinv⟩
    have hany : ((listSnapshots s).any
        fun n => decide (dmGetState s n = DmDeviceState.invalid)) = true :=
      List.any_eq_true.mpr ⟨n, hmem, by simp [hinv]⟩
    unfold initiateMerge
    repeat' split
    all_goals first
      | rfl
      | (exact absurd hany (by assumption))
      | (rw [if_pos hany])
  · intro oldSlot h1 hb hslot hall
    have hany : ((listSnapshots s).any
        fun n => decide (dmGetState s n = DmDeviceState.invalid)) ≠ true := by
      simp only [ne_eq, List.any_eq_true, decide_eq_true_eq, not_exists, not_and]
      exact hall
    have hred : initiateMerge s =
        (let rs := switchList (writeUpdateState s UpdateState.merging).2 (listSnapshots s)
         if !rs.1 then (true, (writeUpdateState rs.2 UpdateState.mergeFailed).2)
         else (true, rs.2)) := by
      unfold initiateMerge
      rw [if_neg (by simp [h1]), hb]
      dsimp only
      rw [if_neg hslot, if_neg hany]
      rfl
    refine ⟨?_, ?_, ?_⟩
    · rcases Bool.dichotomy
        ((switchList (writeUpdateState s UpdateState.merging).2 (listSnapshots s)).1)
        with hr | hr <;>
      · rw [hred]
        dsimp only
        rw [hr]
        rfl
    · intro hsw
      constructor
      · rw [hred]
        dsimp only
        rw [hsw, if_neg (by decide)]
        exact (switchList_frame (writeUpdateState s UpdateState.merging).2
          (listSnapshots s)).2.1
      · intro hnd n hn st hrd
        rw [hred]
        dsimp only
        rw [hsw, if_neg (by decide)]
        exact switchList_success_mergeTargets (listSnapshots s) _ hnd hsw n hn st hrd
    · intro hsw
      rw [hred]
      dsimp only
      rw [hsw, if_pos (by decide)]
      rfl

theorem C1_initiateMerge_amended_witness :
    (initiateMerge exampleUnverifiedSys).1 = true ∧
    (initiateMerge exampleUnverifiedSys).2.stateFile = "merging" ∧
    hasMergeTarget (initiateMerge exampleUnverifiedSys).2 "sys" = true := by
  have h := (C1_initiateMerge_amended exampleUnverifiedSys).2.2.2.2 "_a"
    (by decide) (by decide) (by decide) (by decide)
  refine ⟨h.1, (h.2.1 (by decide)).1, ?_⟩
  exact (h.2.1 (by decide)).2 (by decide) "sys" (by decide)
    ⟨SnapshotState.created, 1024, 1024, 0, 512, 0, 0⟩ (by decide)

end Snapshot
